import Mathlib

/-!
# wuzapi: verification of `main.go`

A shallow embedding of `main.go` (package `main` of the wuzapi gateway):

* `recoveryMiddleware` : the deferred `recover()` guard wrapped around every
  request handler;
* `decodeBase64ToFile` : base64 decoding of the TLS material into a temp file,
  together with the `encoding/base64` routines it calls;
* `userinfocache`      : the `go-cache` instance built at package level;
* `main`               : the boot sequence, the listener goroutine and the
  signal-driven shutdown.

Calls into code that is not part of `main.go` (`s.connectOnStartup`,
`s.Respond`, `s.routes`, the wrapped handler, the operating system) are taken
as parameters: each such call either returns or panics, and what it does to the
rest of the world is an arbitrary state transformer.
-/

namespace Wuzapi

/-! ## Panics and outcomes -/

/-- The non-nil value carried by a Go panic: an `error`, a `string`, or any
other payload (identified here by a tag).  A call `panic(nil)` reaches
`recover()` as a non-nil `*runtime.PanicNilError`, which is an `error`. -/
inductive PanicValue where
  | error (msg : String)
  | str (s : String)
  | other (tag : Nat)
  deriving DecidableEq, Repr

/-- How a Go call ends: it returns to its caller, or it panics. -/
inductive Outcome where
  | returned
  | panicked (v : PanicValue)
  deriving DecidableEq, Repr

/-- The builtin `recover()` evaluated in a deferred function: the value of the
panic in flight, or `nil` (`none`) when the surrounding function is returning
normally. -/
def recover : Outcome → Option PanicValue
  | .returned => none
  | .panicked v => some v

/-! ## `recoveryMiddleware` -/

/-- An inbound `*http.Request`, as far as the middleware is concerned. -/
structure Request where
  method : String
  url : String
  deriving DecidableEq, Repr

/-- The constant `http.StatusInternalServerError`. -/
def StatusInternalServerError : Nat := 500

/-- The calls made by the closure that `recoveryMiddleware` returns, in the
order in which they are made. -/
inductive Call where
  /-- Call `next.ServeHTTP(w, r)`. -/
  | serveHTTP (r : Request)
  /-- Call `log.Error().Interface(key, rec).Msg(msg)`. -/
  | logError (key : String) (rec : PanicValue) (msg : String)
  /-- Call `s.connectOnStartup()`. -/
  | connectOnStartup
  /-- Call `s.Respond(w, r, status, errors.New(err))`. -/
  | respond (r : Request) (status : Nat) (err : String)
  deriving DecidableEq, Repr

/-- The code the middleware calls into, over a state `σ` that holds everything
those calls can read or change (the server, the database, the response writer
of the request being served). -/
structure Collaborators (σ : Type) where
  /-- The wrapped handler, `next.ServeHTTP(w, r)`. -/
  next : Request → σ → σ × Outcome
  /-- The reconciliation routine `s.connectOnStartup()`. -/
  connectOnStartup : σ → σ × Outcome
  /-- The response writer `s.Respond(w, r, status, err)`. -/
  Respond : Request → Nat → String → σ → σ × Outcome

/-- One run of the handler returned by `recoveryMiddleware`. -/
structure Run (σ : Type) where
  state : σ
  calls : List Call
  outcome : Outcome

/-- The handler returned by `s.recoveryMiddleware(next)`, run on request `r`
from state `s`.

```go
defer func() {
    if rec := recover(); rec != nil {
        log.Error().Interface("panic", rec).Msg("Recovered from panic")
        s.connectOnStartup()
        s.Respond(w, r, http.StatusInternalServerError, errors.New("Internal Server Error"))
    }
}()
next.ServeHTTP(w, r)
```

The deferred function runs when `next.ServeHTTP` returns or panics.  Once
`recover()` has been called the panic of the handler is over; a panic raised
inside the deferred function itself is a new panic and leaves the closure. -/
def recoveryMiddleware {σ : Type} (c : Collaborators σ) (r : Request) (s : σ) : Run σ :=
  let served := c.next r s
  match recover served.2 with
  | none => { state := served.1, calls := [.serveHTTP r], outcome := .returned }
  | some rec =>
    let logged := Call.logError "panic" rec "Recovered from panic"
    let connected := c.connectOnStartup served.1
    match connected.2 with
    | .panicked p =>
      { state := connected.1
        calls := [.serveHTTP r, logged, .connectOnStartup]
        outcome := .panicked p }
    | .returned =>
      let responded :=
        c.Respond r StatusInternalServerError "Internal Server Error" connected.1
      { state := responded.1
        calls := [.serveHTTP r, logged, .connectOnStartup,
                  .respond r StatusInternalServerError "Internal Server Error"]
        outcome := responded.2 }

/-- Is this call an invocation of `s.connectOnStartup`? -/
def Call.isConnect : Call → Bool
  | .connectOnStartup => true
  | _ => false

/-- Is this call an invocation of `s.Respond`? -/
def Call.isRespond : Call → Bool
  | .respond _ _ _ => true
  | _ => false

/-- Is this call a log line? -/
def Call.isLog : Call → Bool
  | .logError _ _ _ => true
  | _ => false

/-- The `(status, error message)` pairs handed to `s.Respond`, in order. -/
def respondArgs : List Call → List (Nat × String)
  | [] => []
  | .respond _ status err :: cs => (status, err) :: respondArgs cs
  | _ :: cs => respondArgs cs

/-- The values written to the log, in order. -/
def loggedValues : List Call → List PanicValue
  | [] => []
  | .logError _ rec _ :: cs => rec :: loggedValues cs
  | _ :: cs => loggedValues cs

/-- A handler that panics with `v` and leaves the state alone. -/
def panickingHandler {σ : Type} (v : PanicValue) : Request → σ → σ × Outcome :=
  fun _ s => (s, .panicked v)

/-- Collaborators over the state `Nat` (a counter of completed calls):
the handler panics with `v`, `connectOnStartup` ends as `conn`, `Respond` ends
as `resp`. -/
def sampleCollaborators (v : PanicValue) (conn resp : Outcome) : Collaborators Nat where
  next := panickingHandler v
  connectOnStartup := fun n => (n + 1, conn)
  Respond := fun _ _ _ n => (n + 1, resp)

/-- A sample request. -/
def sampleRequest : Request := { method := "GET", url := "/session/status" }

/-! ## `encoding/base64` (Go standard library), `StdEncoding`

Go strings and byte slices are lists of bytes; a byte is a natural number
below 256. -/

/-- The constant `encodeStd`: the alphabet of `StdEncoding`, as bytes. -/
def encodeStd : List Nat :=
  "ABCDEFGHIJKLMNOPQRSTUVWXYZabcdefghijklmnopqrstuvwxyz0123456789+/".toList.map Char.toNat

/-- The constant `StdPadding`, the character `=`. -/
def StdPadding : Nat := 61

/-- The table `enc.encode[i]` of `StdEncoding`. -/
def encode (i : Nat) : Nat := encodeStd.getD i 0

/-- The table `enc.decodeMap[c]` of `StdEncoding`, as `NewEncoding` fills it:
every entry is `0xFF`, then `decodeMap[encoder[i]] = i` for each `i`. -/
def decodeMap (c : Nat) : Nat :=
  if encodeStd.indexOf c < encodeStd.length then encodeStd.indexOf c else 0xFF

/-- The method `(*Encoding).Encode` of `StdEncoding` (padding character `=`),
which `EncodeToString` converts to a string.

Each group of three source bytes yields four characters; one or two
remaining bytes yield two or three characters followed by padding. -/
def EncodeToString : List Nat → List Nat
  | b0 :: b1 :: b2 :: rest =>
    let val := b0 <<< 16 ||| b1 <<< 8 ||| b2
    encode (val >>> 18 &&& 0x3F) :: encode (val >>> 12 &&& 0x3F) ::
      encode (val >>> 6 &&& 0x3F) :: encode (val &&& 0x3F) :: EncodeToString rest
  | [b0, b1] =>
    let val := b0 <<< 16 ||| b1 <<< 8
    [encode (val >>> 18 &&& 0x3F), encode (val >>> 12 &&& 0x3F),
      encode (val >>> 6 &&& 0x3F), StdPadding]
  | [b0] =>
    let val := b0 <<< 16
    [encode (val >>> 18 &&& 0x3F), encode (val >>> 12 &&& 0x3F), StdPadding, StdPadding]
  | [] => []

/-- The error type `base64.CorruptInputError`: the offset of the bad input. -/
structure CorruptInputError where
  offset : Nat
  deriving DecidableEq, Repr

/-- What `DecodeString` returns: the bytes decoded so far and an error or nil. -/
structure Decoded where
  data : List Nat
  err : Option CorruptInputError
  deriving DecidableEq, Repr

/-- The loop `for si < len(src) && (src[si] == '\n' || src[si] == '\r') { si++ }`
of `decodeQuantum`: the input left and the new `si`. -/
def skipNewlines : List Nat → Nat → List Nat × Nat
  | [], si => ([], si)
  | c :: rest, si => if c = 10 ∨ c = 13 then skipNewlines rest (si + 1) else (c :: rest, si)

/-- The tail of `decodeQuantum`, "convert 4x 6bit source bytes into 3 bytes":
`dbuf` holds the `dlen` sextets read (missing ones are zero) and `dlen - 1`
bytes are written.  `StdEncoding` is not strict, so trailing bits are not
checked. -/
def quantumBytes (dbuf : List Nat) (dlen : Nat) : List Nat :=
  let val := dbuf.getD 0 0 <<< 18 ||| dbuf.getD 1 0 <<< 12 ||| dbuf.getD 2 0 <<< 6 ||| dbuf.getD 3 0
  match dlen with
  | 4 => [(val >>> 16) % 256, (val >>> 8) % 256, (val >>> 0) % 256]
  | 3 => [(val >>> 16) % 256, (val >>> 8) % 256]
  | 2 => [(val >>> 16) % 256]
  | _ => []

/-- The loops of `(*Encoding).Decode` and `decodeQuantum` for `StdEncoding`, as
one recursion over the input still to read: `si` is the offset reached, `dbuf`
the sextets of the current quantum (`j = dbuf.length`), `dst` the bytes written
so far.  The 8-byte and 4-byte fast paths of `Decode` decode a run of alphabet
characters exactly as `decodeQuantum` does and are not modelled apart. -/
def decodeLoop : List Nat → Nat → List Nat → List Nat → Decoded
  | [], si, dbuf, dst =>
    -- `len(src) == si`: fine between two quanta, corrupt inside one
    if dbuf.length = 0 then { data := dst, err := none }
    else { data := dst, err := some ⟨si - dbuf.length⟩ }
  | c :: rest, si, dbuf, dst =>
    let si := si + 1
    let out := decodeMap c
    if out ≠ 0xFF then
      let dbuf := dbuf ++ [out]
      if dbuf.length = 4 then decodeLoop rest si [] (dst ++ quantumBytes dbuf 4)
      else decodeLoop rest si dbuf dst
    else if c = 10 ∨ c = 13 then decodeLoop rest si dbuf dst
    else if c ≠ StdPadding then { data := dst, err := some ⟨si - 1⟩ }
    else
      -- padding: the quantum ends here
      match dbuf.length with
      | 0 => { data := dst, err := some ⟨si - 1⟩ }
      | 1 => { data := dst, err := some ⟨si - 1⟩ }
      | 2 =>
        -- "==" is expected, the first "=" is already consumed
        match skipNewlines rest si with
        | ([], si) => { data := dst, err := some ⟨si⟩ }
        | (c2 :: rest2, si) =>
          if c2 ≠ StdPadding then { data := dst, err := some ⟨si - 1⟩ }
          else
            match skipNewlines rest2 (si + 1) with
            | ([], _) => { data := dst ++ quantumBytes dbuf 2, err := none }
            | (_ :: _, si) => { data := dst ++ quantumBytes dbuf 2, err := some ⟨si⟩ }
      | j =>
        match skipNewlines rest si with
        | ([], _) => { data := dst ++ quantumBytes dbuf j, err := none }
        | (_ :: _, si) => { data := dst ++ quantumBytes dbuf j, err := some ⟨si⟩ }

/-- The method `(*Encoding).DecodeString` of `StdEncoding`. -/
def DecodeString (s : List Nat) : Decoded := decodeLoop s 0 [] []

/-- The bytes of an ASCII string literal. -/
def bytes (s : String) : List Nat := s.toList.map Char.toNat

/-- The claim's "valid standard padded base64", character by character: the
alphabet of RFC 4648 section 4, `A`-`Z`, `a`-`z`, `0`-`9`, `+` and `/`. -/
def inStdAlphabet (c : Nat) : Bool :=
  (65 ≤ c && c ≤ 90) || (97 ≤ c && c ≤ 122) || (48 ≤ c && c ≤ 57) || c == 43 || c == 47

/-- The claim's "valid standard padded base64" (RFC 4648 section 4): the length
is a multiple of four, and the string is alphabet characters followed by no
padding, by `=`, or by `==`. -/
def validStdPadded (s : List Nat) : Bool :=
  s.length % 4 == 0 &&
    (s.takeWhile (fun c => c != StdPadding)).all inStdAlphabet &&
    (s.dropWhile (fun c => c != StdPadding) == [] ||
      s.dropWhile (fun c => c != StdPadding) == [StdPadding] ||
      s.dropWhile (fun c => c != StdPadding) == [StdPadding, StdPadding])

/-- The input without its carriage returns and line feeds. -/
def stripNewlines (s : List Nat) : List Nat :=
  s.filter (fun c => !(c == 10 || c == 13))

/-! ## The file system and `decodeBase64ToFile` -/

/-- A Go `error` value, as far as `main.go` can tell them apart. -/
inductive GoError where
  /-- An error of type `base64.CorruptInputError`. -/
  | corruptInput (offset : Nat)
  /-- An error reported by the operating system or a library. -/
  | os (msg : String)
  deriving DecidableEq, Repr

/-- The files on disk: path and content. -/
structure FileSystem where
  files : List (String × List Nat)
  deriving DecidableEq, Repr

/-- The content of the file at `path`, if there is one. -/
def FileSystem.read (fs : FileSystem) (path : String) : Option (List Nat) :=
  (fs.files.find? (fun f => f.1 == path)).map (fun f => f.2)

/-- The file system with the file at `path` holding `content`. -/
def FileSystem.put (fs : FileSystem) (path : String) (content : List Nat) : FileSystem :=
  { files := (path, content) :: fs.files.filter (fun f => f.1 != path) }

/-- What the operating system answers to the calls of `decodeBase64ToFile`. -/
structure OS where
  /-- The directory `os.TempDir()`. -/
  tempDir : String
  /-- The outcome of creating a temp file: an error, or the random part of
  the name that was free. -/
  tempFile : FileSystem → Except String String
  /-- The outcome of `tmpFile.Write(data)` on the file at the path: `none` when
  all of `data` was written, else the number of bytes written and the error. -/
  write : FileSystem → String → List Nat → Option (Nat × String)

/-- The call `ioutil.TempFile("", "cert-*.pem")`: a new, empty file in the
default temp directory, named `cert-`, a random string, `.pem`. -/
def TempFile (os : OS) (fs : FileSystem) : Except GoError String × FileSystem :=
  match os.tempFile fs with
  | .error msg => (.error (.os msg), fs)
  | .ok random =>
    let name := os.tempDir ++ "/" ++ "cert-" ++ random ++ ".pem"
    (.ok name, fs.put name [])

/-- The function `decodeBase64ToFile` of `main.go`: the returned path, the
returned error, and the file system afterwards.

```go
data, err := base64.StdEncoding.DecodeString(encoded)
if err != nil { return "", err }
tmpFile, err := ioutil.TempFile("", "cert-*.pem")
if err != nil { return "", err }
defer tmpFile.Close()
if _, err := tmpFile.Write(data); err != nil { return "", err }
return tmpFile.Name(), nil
``` -/
def decodeBase64ToFile (os : OS) (fs : FileSystem) (encoded : List Nat) :
    (String × Option GoError) × FileSystem :=
  let decoded := DecodeString encoded
  match decoded.err with
  | some e => (("", some (.corruptInput e.offset)), fs)
  | none =>
    match TempFile os fs with
    | (.error e, fs1) => (("", some e), fs1)
    | (.ok name, fs1) =>
      match os.write fs1 name decoded.data with
      | some (n, msg) => (("", some (.os msg)), fs1.put name (decoded.data.take n))
      | none => ((name, none), fs1.put name decoded.data)

/-- An operating system on which temp files can always be created and
written; the random part of the name is the number of files present. -/
def healthyOS : OS where
  tempDir := "/tmp"
  tempFile := fun fs => .ok (toString fs.files.length)
  write := fun _ _ _ => none

/-- An empty disk. -/
def emptyFS : FileSystem := { files := [] }

/-! ## `github.com/patrickmn/go-cache` and `userinfocache`

Times are `UnixNano` values and durations are nanoseconds, as in `time`. -/

/-- The constant `time.Second`. -/
def Second : Int := 1000000000

/-- The constant `time.Minute`. -/
def Minute : Int := 60 * Second

/-- The constant `cache.NoExpiration`. -/
def NoExpiration : Int := -1

/-- The constant `cache.DefaultExpiration`. -/
def DefaultExpiration : Int := 0

/-- The struct `cache.Item`: `Expiration` is a `UnixNano` time, or zero for an
item that never expires. -/
structure Item (α : Type) where
  Object : α
  Expiration : Int

/-- The struct `cache.Cache` with its janitor: `cleanupInterval` is the
`Interval` of the janitor's ticker. -/
structure Cache (α : Type) where
  defaultExpiration : Int
  cleanupInterval : Int
  items : List (String × Item α)

/-- The constructor `cache.New(defaultExpiration, cleanupInterval)`: the first
argument is the default expiration of an item, the second is the interval at
which the janitor deletes expired items (`newCache` turns a default expiration
of zero into `-1`; a janitor runs only when `cleanupInterval > 0`). -/
def New {α : Type} (defaultExpiration cleanupInterval : Int) : Cache α :=
  { defaultExpiration := if defaultExpiration = 0 then -1 else defaultExpiration
    cleanupInterval := cleanupInterval
    items := [] }

/-- The method `Set(k, x, d)` called at time `now`. -/
def Cache.Set {α : Type} (c : Cache α) (now : Int) (k : String) (x : α) (d : Int) : Cache α :=
  let d := if d = DefaultExpiration then c.defaultExpiration else d
  let e := if d > 0 then now + d else 0
  { c with items := (k, { Object := x, Expiration := e }) :: c.items.filter (fun it => it.1 != k) }

/-- The method `Get(k)` called at time `now`: the object and `true`, or a
miss when the key is absent or `now` is past the item's expiration. -/
def Cache.Get {α : Type} (c : Cache α) (now : Int) (k : String) : Option α :=
  match c.items.find? (fun it => it.1 == k) with
  | none => none
  | some it =>
    if it.2.Expiration > 0 ∧ now > it.2.Expiration then none else some it.2.Object

/-- The method `DeleteExpired()` called at time `now`. -/
def Cache.DeleteExpired {α : Type} (c : Cache α) (now : Int) : Cache α :=
  { c with items := c.items.filter (fun it => !(decide (it.2.Expiration > 0 ∧ now > it.2.Expiration))) }

/-- The time of the janitor's `n`-th tick (counted from zero) for a cache
created at time `created`: the ticker fires once every `cleanupInterval`, and
each tick runs `DeleteExpired`. -/
def Cache.janitorTick {α : Type} (c : Cache α) (created : Int) (n : Nat) : Int :=
  created + (n + 1) * c.cleanupInterval

/-- The package-level variable of `main.go`:
`userinfocache = cache.New(5*time.Minute, 10*time.Minute)`. -/
def userinfocache {α : Type} : Cache α := New (5 * Minute) (10 * Minute)

/-! ## `main` -/

/-- The two `http.Server` variables of `main`, both named `srv`: the one
declared in the body of `main` and the one declared inside the goroutine,
which shadows it there. -/
inductive SrvVar where
  | outer
  | inner
  deriving DecidableEq, Repr

/-- An `http.Server` value as `main` builds it (timeouts in seconds). -/
structure Server where
  var : SrvVar
  Addr : String
  ReadHeaderTimeout : Nat
  ReadTimeout : Nat
  WriteTimeout : Nat
  IdleTimeout : Nat
  deriving DecidableEq, Repr

/-- The effects of `main` that can be observed from outside, in order. -/
inductive Event where
  /-- A line logged with `log.Fatal()`. -/
  | logFatal (msg : String)
  /-- A line logged with `log.Error()`. -/
  | logError (msg : String)
  /-- A line logged with `log.Info()`. -/
  | logInfo (msg : String)
  /-- Call `os.MkdirAll(dir, 0751)`. -/
  | mkdirAll (dir : String)
  /-- Call `sql.Open(driver, dsn)`, with the error it returned. -/
  | sqlOpen (driver dsn : String) (err : Option String)
  /-- Call `db.Exec(stmt)`, with the error it returned. -/
  | dbExec (stmt : String) (err : Option String)
  /-- Call `sqlstore.New(dialect, address, log)`, with the error it returned. -/
  | sqlstoreNew (dialect address : String) (err : Option String)
  /-- Call `s.routes()`. -/
  | routes
  /-- Entry into `s.connectOnStartup()`. -/
  | connectOnStartupCalled
  /-- Return from `s.connectOnStartup()`. -/
  | connectOnStartupReturned
  /-- Call `srv.ListenAndServe()`. -/
  | listenAndServe (srv : Server)
  /-- Call `srv.ListenAndServeTLS(certFile, keyFile)`. -/
  | listenAndServeTLS (srv : Server) (certFile keyFile : String)
  /-- Receipt of a signal on the channel `done`. -/
  | signal
  /-- Call `srv.Shutdown(ctx)` with a context that times out after `timeout`
  nanoseconds. -/
  | shutdown (srv : Server) (timeout : Int)
  /-- The process ends through `os.Exit(code)`, or with status zero when
  `main` returns. -/
  | exit (code : Nat)
  /-- The process ends on a panic that nothing recovers. -/
  | panic (v : PanicValue)
  deriving DecidableEq, Repr

/-- The environment variables `main` reads. -/
structure Environ where
  DB_USER : String
  DB_PASSWORD : String
  DB_HOST : String
  DB_PORT : String
  DB_NAME : String
  ADDRESS : String
  CERTIFICATE : List Nat
  SSLKEY : List Nat

/-- Everything outside `main.go` that `main` depends on. -/
structure World where
  environ : Environ
  /-- The flag `-port`. -/
  port : String
  /-- The flag `-wadebug`. -/
  waDebug : String
  /-- The result of `os.Executable()`. -/
  executable : Except String String
  /-- Whether `os.Stat(dbDirectory)` reports that the directory is missing. -/
  dbDirMissing : Bool
  /-- The error of `os.MkdirAll`, if any. -/
  mkdirAll : String → Option String
  /-- The error of `sql.Open(driver, dsn)`, if any. -/
  sqlOpen : String → String → Option String
  /-- The error of `db.Exec(stmt)`, if any. -/
  dbExec : String → Option String
  /-- The error of `sqlstore.New(dialect, address, log)`, if any. -/
  sqlstoreNew : String → String → Option String
  /-- How the call `s.connectOnStartup()` made by `main` ends. -/
  connectOnStartup : Outcome
  os : OS
  fs : FileSystem
  /-- Whether a certificate file and a key file (by content) form a valid
  X.509 key pair. -/
  validKeyPair : List Nat → List Nat → Bool
  /-- The error with which a listener on this server fails before serving
  (the address cannot be bound, say); `none` when it serves until closed. -/
  listen : Server → Option String
  /-- Whether a signal is ever delivered on `done`. -/
  signalled : Bool
  /-- The error of `srv.Shutdown(ctx)`, if any. -/
  shutdown : Server → Option String

/-- The function `filepath.Dir`, for the clean path that `os.Executable`
returns: the path up to its last separator, without that separator unless it
is the root; `.` when there is no separator. -/
def Dir (path : String) : String :=
  match (path.toList.reverse.dropWhile (fun c => c != '/')).reverse with
  | [] => "."
  | ['/'] => "/"
  | dir => String.mk dir.dropLast

/-- The statement `sqlStmt` of `main` (its line breaks and indentation left
out). -/
def sqlStmt : String :=
  "CREATE TABLE IF NOT EXISTS users (id INT AUTO_INCREMENT PRIMARY KEY, " ++
  "name VARCHAR(255) NOT NULL, token VARCHAR(255) NOT NULL, " ++
  "webhook VARCHAR(255) NOT NULL DEFAULT '', jid VARCHAR(255) NOT NULL DEFAULT '', " ++
  "qrcode VARCHAR(255) NOT NULL DEFAULT '', connected TINYINT DEFAULT 0, " ++
  "expiration BIGINT, events TEXT NOT NULL);"

/-- The variable `address` of `main`: `ADDRESS`, or `0.0.0.0` when unset. -/
def address (w : World) : String :=
  if w.environ.ADDRESS = "" then "0.0.0.0" else w.environ.ADDRESS

/-- The `srv` declared in the body of `main`, `Addr: address + ":" + *port`. -/
def outerSrv (w : World) : Server :=
  { var := .outer, Addr := address w ++ ":" ++ w.port
    ReadHeaderTimeout := 20, ReadTimeout := 60, WriteTimeout := 120, IdleTimeout := 180 }

/-- The `srv` declared inside the goroutine, `Addr: address + ":443"`. -/
def innerSrv (w : World) : Server :=
  { var := .inner, Addr := address w ++ ":443"
    ReadHeaderTimeout := 20, ReadTimeout := 60, WriteTimeout := 120, IdleTimeout := 180 }

/-- The main goroutine up to the statement `go func() { ... }()`. -/
structure Boot where
  events : List Event
  /-- Whether the `go` statement was reached. -/
  started : Bool
  deriving DecidableEq, Repr

/-- The variable `dsn` of `main`,
`fmt.Sprintf("%s:%s@tcp(%s:%s)/%s?parseTime=true", ...)`. -/
def dsn (w : World) : String :=
  w.environ.DB_USER ++ ":" ++ w.environ.DB_PASSWORD ++ "@tcp(" ++ w.environ.DB_HOST ++
    ":" ++ w.environ.DB_PORT ++ ")/" ++ w.environ.DB_NAME ++ "?parseTime=true"

/-- The dialect handed to `sqlstore.New`: `mysql` when `-wadebug` is set,
`sqlite` otherwise. -/
def storeDialect (w : World) : String :=
  if w.waDebug ≠ "" then "mysql" else "sqlite"

/-- The address handed to `sqlstore.New`. -/
def storeLocation (w : World) (exPath : String) : String :=
  if w.waDebug ≠ "" then "user:password@tcp(127.0.0.1:3306)/dbname?parseTime=true"
  else "file:" ++ exPath ++ "/dbdata/main.db?_pragma=foreign_keys(1)&_busy_timeout=3000"

/-- Lines 160 to 183 of `main`: `db.Exec(sqlStmt)`, `sqlstore.New`, the server
value, `s.routes()` and `s.connectOnStartup()`.  A failed `db.Exec` panics
with `fmt.Sprintf("%q: %s\n", err, sqlStmt)`. -/
def bootStore (w : World) (exPath : String) : Boot :=
  match w.dbExec sqlStmt with
  | some err =>
    { events := [.dbExec sqlStmt (some err),
                 .panic (.str ("\"" ++ err ++ "\": " ++ sqlStmt ++ "\n"))]
      started := false }
  | none =>
    match w.sqlstoreNew (storeDialect w) (storeLocation w exPath) with
    | some err =>
      { events := [.dbExec sqlStmt none,
                   .sqlstoreNew (storeDialect w) (storeLocation w exPath) (some err),
                   .panic (.error err)]
        started := false }
    | none =>
      match w.connectOnStartup with
      | .panicked v =>
        { events := [.dbExec sqlStmt none,
                     .sqlstoreNew (storeDialect w) (storeLocation w exPath) none, .routes,
                     .connectOnStartupCalled, .panic v]
          started := false }
      | .returned =>
        { events := [.dbExec sqlStmt none,
                     .sqlstoreNew (storeDialect w) (storeLocation w exPath) none, .routes,
                     .connectOnStartupCalled, .connectOnStartupReturned]
          started := true }

/-- Lines 126 to 146 of `main`, then `bootStore`: the environment is read, the
DSN is formatted and `sql.Open("mysql", dsn)` is called; `log.Fatal()` exits
with status 1 once its message is written. -/
def bootOpen (w : World) (exPath : String) : Boot :=
  match w.sqlOpen "mysql" (dsn w) with
  | some err =>
    { events := [.sqlOpen "mysql" (dsn w) (some err),
                 .logFatal "Could not open MySQL connection", .exit 1]
      started := false }
  | none =>
    { events := .sqlOpen "mysql" (dsn w) none :: (bootStore w exPath).events
      started := (bootStore w exPath).started }

/-- The main goroutine of `main` from its first line to the `go` statement. -/
def boot (w : World) : Boot :=
  match w.executable with
  | .error err => { events := [.panic (.error err)], started := false }
  | .ok ex =>
    if w.dbDirMissing then
      match w.mkdirAll (Dir ex ++ "/dbdata") with
      | some _ =>
        { events := [.mkdirAll (Dir ex ++ "/dbdata"),
                     .panic (.str "Could not create dbdata directory")]
          started := false }
      | none =>
        { events := .mkdirAll (Dir ex ++ "/dbdata") :: (bootOpen w (Dir ex)).events
          started := (bootOpen w (Dir ex)).started }
    else bootOpen w (Dir ex)

/-- The call `tls.LoadX509KeyPair(certFile, keyFile)`: whether it returns an
error. -/
def LoadX509KeyPairFails (w : World) (fs : FileSystem) (certFile keyFile : String) : Bool :=
  match fs.read certFile, fs.read keyFile with
  | some cert, some key => !(w.validKeyPair cert key)
  | _, _ => true

/-- The error with which `srv.ListenAndServeTLS(certFile, keyFile)` returns
before serving, if it does: the address cannot be bound, or the key pair cannot
be loaded. -/
def ListenAndServeTLSFails (w : World) (fs : FileSystem) (srv : Server)
    (certFile keyFile : String) : Option String :=
  match w.listen srv with
  | some err => some err
  | none =>
    if LoadX509KeyPairFails w fs certFile keyFile then some "tls: failed to load key pair"
    else none

/-- The first half of the goroutine (lines 198 to 211): the two paths, the
lines logged, and the file system afterwards. -/
def decodeMaterial (w : World) : (String × String) × List Event × FileSystem :=
  if w.environ.CERTIFICATE ≠ [] ∧ w.environ.SSLKEY ≠ [] then
    let cert := decodeBase64ToFile w.os w.fs w.environ.CERTIFICATE
    let key := decodeBase64ToFile w.os cert.2 w.environ.SSLKEY
    ((cert.1.1, key.1.1),
      (if cert.1.2 ≠ none then [Event.logError "Erro ao decodificar certificado:"] else []) ++
      (if key.1.2 ≠ none then [Event.logError "Erro ao decodificar chave SSL:"] else []),
      key.2)
  else (("", ""), [], w.fs)

/-- The goroutine that `main` starts (lines 197 to 252). -/
def listenerGoroutine (w : World) : List Event :=
  let material := decodeMaterial w
  let certPath := material.1.1
  let keyPath := material.1.2
  let fs := material.2.2
  if certPath ≠ "" ∧ keyPath ≠ "" then
    material.2.1 ++
    (if LoadX509KeyPairFails w fs certPath keyPath then
      [Event.logError "Erro ao carregar certificado SSL:"] else []) ++
    [.logInfo "Starting HTTPS server...", .listenAndServeTLS (innerSrv w) certPath keyPath] ++
    (match ListenAndServeTLSFails w fs (innerSrv w) certPath keyPath with
      | some _ => [.logError "Startup failed:"]
      | none => [])
  else
    material.2.1 ++ [.listenAndServe (outerSrv w)] ++
    (match w.listen (outerSrv w) with
      | some _ => [.logFatal "Startup failed", .exit 1]
      | none => [])

/-- The main goroutine after the `go` statement (lines 254 to 269): it logs,
waits for a signal, and shuts `srv` down within five seconds.  The `srv` in
scope here is the one declared in the body of `main`. -/
def awaitShutdown (w : World) : List Event :=
  if w.signalled then
    [.logInfo "Server Started", .signal, .logInfo "Server Stoped",
      .shutdown (outerSrv w) (5 * Second)] ++
    (match w.shutdown (outerSrv w) with
      | some _ => [.logError "Server Shutdown Failed", .exit 1]
      | none => [.logInfo "Server Exited Properly", .exit 0])
  else [.logInfo "Server Started"]

/-- Does this event end the process? -/
def Event.isExit : Event → Bool
  | .exit _ => true
  | .panic _ => true
  | _ => false

/-- Is this event the start of a listener? -/
def Event.isListen : Event → Bool
  | .listenAndServe _ => true
  | .listenAndServeTLS _ _ _ => true
  | _ => false

/-- Is this event a failed `sql.Open` or a failed `db.Exec`? -/
def Event.isStoreFailure : Event → Bool
  | .sqlOpen _ _ (some _) => true
  | .dbExec _ (some _) => true
  | _ => false

/-- One interleaving of two goroutines: `true` lets the first take a step,
`false` the second; once the schedule or one goroutine is exhausted, what is
left runs in order. -/
def interleave {α : Type} : List Bool → List α → List α → List α
  | _, [], ys => ys
  | _, xs, [] => xs
  | [], xs, ys => xs ++ ys
  | true :: sched, x :: xs, ys => x :: interleave sched xs ys
  | false :: sched, xs, y :: ys => y :: interleave sched xs ys

/-- The events up to and including the one that ends the process. -/
def untilExit : List Event → List Event
  | [] => []
  | e :: es => if e.isExit then [e] else e :: untilExit es

/-- The function `main`: the boot sequence, then the listener goroutine and
the main goroutine interleaved by `sched`, up to the end of the process.
Every execution of `main` is `main w sched` for some schedule. -/
def main (w : World) (sched : List Bool) : List Event :=
  let b := boot w
  if b.started then
    b.events ++ untilExit (interleave sched (listenerGoroutine w) (awaitShutdown w))
  else b.events

/-- The servers on which a listener was started, in order. -/
def listeners : List Event → List Server
  | [] => []
  | .listenAndServe srv :: es => srv :: listeners es
  | .listenAndServeTLS srv _ _ :: es => srv :: listeners es
  | _ :: es => listeners es

/-- The servers on which `Shutdown` was called, in order. -/
def shutdowns : List Event → List Server
  | [] => []
  | .shutdown srv _ :: es => srv :: shutdowns es
  | _ :: es => shutdowns es

/-- A world in which nothing fails: the store opens, the schema is ensured,
reconciliation returns, every address can be bound, every key pair is valid,
and a signal arrives.  The TLS material is `cert` and `key`. -/
def healthyWorld (cert key : List Nat) : World where
  environ := { DB_USER := "wuzapi", DB_PASSWORD := "secret", DB_HOST := "db", DB_PORT := "3306"
               DB_NAME := "wuzapi", ADDRESS := "", CERTIFICATE := cert, SSLKEY := key }
  port := "9000"
  waDebug := ""
  executable := .ok "/app/wuzapi"
  dbDirMissing := false
  mkdirAll := fun _ => none
  sqlOpen := fun _ _ => none
  dbExec := fun _ => none
  sqlstoreNew := fun _ _ => none
  connectOnStartup := .returned
  os := healthyOS
  fs := emptyFS
  validKeyPair := fun _ _ => true
  listen := fun _ => none
  signalled := true
  shutdown := fun _ => none

/-- The world `healthyWorld` with TLS material that decodes but is not a valid
key pair: the base64 of "cert" and of "key". -/
def badPairWorld : World :=
  { healthyWorld (bytes "Y2VydA==") (bytes "a2V5") with validKeyPair := fun _ _ => false }

/-- The world `healthyWorld` with TLS material that decodes and is a valid key
pair. -/
def tlsWorld : World := healthyWorld (bytes "Y2VydA==") (bytes "a2V5")

/-- The world `healthyWorld` in which `sqlstore.New` fails. -/
def brokenDeviceStoreWorld : World :=
  { healthyWorld [] [] with sqlstoreNew := fun _ _ => some "unable to open database file" }

/-- The world `healthyWorld` in which `db.Exec` fails. -/
def brokenSchemaWorld : World :=
  { healthyWorld [] [] with dbExec := fun _ => some "access denied" }

/-! # Theorems -/

set_option maxRecDepth 100000

/-! ## `recoveryMiddleware` -/

/-- C1 (as amended).  When the wrapped handler returns normally the guard does
nothing: the only call is the handler itself, the reconciliation routine and
`Respond` are called zero times, and the middleware returns.  When the handler
panics with `v`, the value `v` is logged and `connectOnStartup` is invoked
exactly once; if `connectOnStartup` returns normally, `Respond` is called
exactly once, with status 500 and the error "Internal Server Error"; and if
`Respond` returns normally too, the panic does not leave the middleware. -/
theorem recoveryMiddleware_contract {σ : Type} (c : Collaborators σ) (r : Request) (s : σ) :
    ((c.next r s).2 = .returned →
      (recoveryMiddleware c r s).calls = [.serveHTTP r] ∧
      (recoveryMiddleware c r s).calls.countP Call.isConnect = 0 ∧
      (recoveryMiddleware c r s).calls.countP Call.isRespond = 0 ∧
      (recoveryMiddleware c r s).outcome = .returned) ∧
    (∀ v, (c.next r s).2 = .panicked v →
      (recoveryMiddleware c r s).calls.countP Call.isConnect = 1 ∧
      loggedValues (recoveryMiddleware c r s).calls = [v] ∧
      ((c.connectOnStartup (c.next r s).1).2 = .returned →
        (recoveryMiddleware c r s).calls.countP Call.isRespond = 1 ∧
        respondArgs (recoveryMiddleware c r s).calls = [(500, "Internal Server Error")] ∧
        ((c.Respond r 500 "Internal Server Error" (c.connectOnStartup (c.next r s).1).1).2
            = .returned →
          (recoveryMiddleware c r s).outcome = .returned))) := by
  refine ⟨fun h => ?_, fun v h => ?_⟩
  · simp [recoveryMiddleware, h, recover, Call.isConnect, Call.isRespond]
  · refine ⟨?_, ?_, fun hc => ⟨?_, ?_, fun hr => ?_⟩⟩
    · cases hc : (c.connectOnStartup (c.next r s).1).2 <;>
        simp [recoveryMiddleware, h, hc, recover, Call.isConnect, List.countP_cons]
    · cases hc : (c.connectOnStartup (c.next r s).1).2 <;>
        simp [recoveryMiddleware, h, hc, recover, loggedValues]
    · simp [recoveryMiddleware, h, hc, recover, Call.isRespond, List.countP_cons]
    · simp [recoveryMiddleware, h, hc, recover, respondArgs, StatusInternalServerError]
    · simp only [StatusInternalServerError] at *
      simp [recoveryMiddleware, h, hc, hr, recover, StatusInternalServerError]

/-- Witness for C1: a handler that panics with "boom" while `connectOnStartup`
and `Respond` return. -/
theorem recoveryMiddleware_contract_witness :
    (recoveryMiddleware (sampleCollaborators (.str "boom") .returned .returned)
        sampleRequest 0).calls.countP Call.isRespond = 1 ∧
    respondArgs (recoveryMiddleware (sampleCollaborators (.str "boom") .returned .returned)
        sampleRequest 0).calls = [(500, "Internal Server Error")] ∧
    (recoveryMiddleware (sampleCollaborators (.str "boom") .returned .returned)
        sampleRequest 0).outcome = .returned :=
  have h := ((recoveryMiddleware_contract
    (sampleCollaborators (.str "boom") .returned .returned) sampleRequest 0).2
      (.str "boom") rfl).2.2 rfl
  ⟨h.1, h.2.1, h.2.2 rfl⟩

/-- C1 as stated fails: the handler panics, `connectOnStartup` is invoked and
panics in turn, and no response is written at all. -/
theorem recoveryMiddleware_response_skipped :
    ((sampleCollaborators (.str "boom") (.panicked (.error "store unreachable")) .returned).next
        sampleRequest 0).2 = .panicked (.str "boom") ∧
    (recoveryMiddleware
        (sampleCollaborators (.str "boom") (.panicked (.error "store unreachable")) .returned)
        sampleRequest 0).calls.countP Call.isConnect = 1 ∧
    (recoveryMiddleware
        (sampleCollaborators (.str "boom") (.panicked (.error "store unreachable")) .returned)
        sampleRequest 0).calls.countP Call.isRespond = 0 := by
  decide

/-- C2 (as amended).  When the handler panics, the middleware returns normally
provided `connectOnStartup` and `Respond` both return normally while the guard
runs; a panic raised by `connectOnStartup`, or by `Respond`, leaves the
middleware. -/
theorem recoveryMiddleware_guard_outcome {σ : Type} (c : Collaborators σ) (r : Request) (s : σ)
    (v : PanicValue) (h : (c.next r s).2 = .panicked v) :
    ((c.connectOnStartup (c.next r s).1).2 = .returned →
      (c.Respond r 500 "Internal Server Error" (c.connectOnStartup (c.next r s).1).1).2
          = .returned →
      (recoveryMiddleware c r s).outcome = .returned) ∧
    (∀ p, (c.connectOnStartup (c.next r s).1).2 = .panicked p →
      (recoveryMiddleware c r s).outcome = .panicked p) ∧
    (∀ p, (c.connectOnStartup (c.next r s).1).2 = .returned →
      (c.Respond r 500 "Internal Server Error" (c.connectOnStartup (c.next r s).1).1).2
          = .panicked p →
      (recoveryMiddleware c r s).outcome = .panicked p) := by
  refine ⟨fun hc hr => ?_, fun p hc => ?_, fun p hc hr => ?_⟩
  · simp only [StatusInternalServerError] at *
    simp [recoveryMiddleware, h, hc, hr, recover, StatusInternalServerError]
  · simp [recoveryMiddleware, h, hc, recover]
  · simp only [StatusInternalServerError] at *
    simp [recoveryMiddleware, h, hc, hr, recover, StatusInternalServerError]

/-- Witness for C2: the handler panics and both calls of the guard return. -/
theorem recoveryMiddleware_guard_outcome_witness :
    (recoveryMiddleware (sampleCollaborators (.other 7) .returned .returned)
        sampleRequest 0).outcome = .returned :=
  (recoveryMiddleware_guard_outcome (sampleCollaborators (.other 7) .returned .returned)
    sampleRequest 0 (.other 7) rfl).1 rfl rfl

/-- C2 as stated fails: the handler panics, `connectOnStartup` returns, and
`Respond` panics while the guard runs; that panic leaves the middleware. -/
theorem recoveryMiddleware_guard_faults :
    ((sampleCollaborators (.str "boom") .returned (.panicked (.str "broken pipe"))).next
        sampleRequest 0).2 = .panicked (.str "boom") ∧
    (recoveryMiddleware
        (sampleCollaborators (.str "boom") .returned (.panicked (.str "broken pipe")))
        sampleRequest 0).outcome = .panicked (.str "broken pipe") := by
  decide

/-- C3.  Take two runs on the same request from the same state in which the
handlers panic, with values `v₁` and `v₂`.  Every call to `Respond` in either
run carries status 500 and the error "Internal Server Error".  When the two
runs differ in nothing but the panic value, they hand `Respond` the same
arguments, make the same calls apart from the log line, end in the same state
with the same outcome, and the log holds `v₁` in one and `v₂` in the other. -/
theorem recoveryMiddleware_response_independent {σ : Type} (c₁ c₂ : Collaborators σ)
    (r : Request) (s s₁ : σ) (v₁ v₂ : PanicValue)
    (h₁ : c₁.next r s = (s₁, .panicked v₁)) (h₂ : c₂.next r s = (s₁, .panicked v₂))
    (hconn : c₁.connectOnStartup = c₂.connectOnStartup) (hresp : c₁.Respond = c₂.Respond) :
    (∀ a ∈ respondArgs (recoveryMiddleware c₁ r s).calls, a = (500, "Internal Server Error")) ∧
    (∀ a ∈ respondArgs (recoveryMiddleware c₂ r s).calls, a = (500, "Internal Server Error")) ∧
    respondArgs (recoveryMiddleware c₁ r s).calls = respondArgs (recoveryMiddleware c₂ r s).calls ∧
    (recoveryMiddleware c₁ r s).calls.filter (fun call => !call.isLog) =
      (recoveryMiddleware c₂ r s).calls.filter (fun call => !call.isLog) ∧
    (recoveryMiddleware c₁ r s).state = (recoveryMiddleware c₂ r s).state ∧
    (recoveryMiddleware c₁ r s).outcome = (recoveryMiddleware c₂ r s).outcome ∧
    loggedValues (recoveryMiddleware c₁ r s).calls = [v₁] ∧
    loggedValues (recoveryMiddleware c₂ r s).calls = [v₂] := by
  cases hc : (c₂.connectOnStartup s₁).2 <;>
    simp [recoveryMiddleware, h₁, h₂, hconn, hresp, hc, recover, respondArgs, loggedValues,
      Call.isLog, StatusInternalServerError]

/-- Witness for C3: one handler panics with an error, the other with a
string. -/
theorem recoveryMiddleware_response_independent_witness :
    respondArgs (recoveryMiddleware (sampleCollaborators (.error "nil map") .returned .returned)
        sampleRequest 0).calls =
      respondArgs (recoveryMiddleware (sampleCollaborators (.str "secret") .returned .returned)
        sampleRequest 0).calls ∧
    respondArgs (recoveryMiddleware (sampleCollaborators (.str "secret") .returned .returned)
        sampleRequest 0).calls = [(500, "Internal Server Error")] :=
  ⟨(recoveryMiddleware_response_independent
      (sampleCollaborators (.error "nil map") .returned .returned)
      (sampleCollaborators (.str "secret") .returned .returned)
      sampleRequest 0 0 (.error "nil map") (.str "secret") rfl rfl rfl rfl).2.2.1, by decide⟩

/-! ## `encoding/base64` -/

theorem and_0x3F (x : Nat) : x &&& 0x3F = x % 64 := by
  have h := Nat.and_pow_two_sub_one_eq_mod x 6
  simpa using h

theorem or_of_lt (a b i : Nat) (h : b < 2 ^ i) : a * 2 ^ i ||| b = a * 2 ^ i + b := by
  rw [Nat.mul_comm]
  exact (Nat.mul_add_lt_is_or h a).symm

theorem or3_eq (b0 b1 b2 : Nat) (h1 : b1 < 256) (h2 : b2 < 256) :
    b0 <<< 16 ||| b1 <<< 8 ||| b2 = b0 * 65536 + b1 * 256 + b2 := by
  rw [Nat.shiftLeft_eq, Nat.shiftLeft_eq, or_of_lt b0 (b1 * 2 ^ 8) 16 (by omega)]
  have e : b0 * 2 ^ 16 + b1 * 2 ^ 8 = (b0 * 2 ^ 8 + b1) * 2 ^ 8 := by omega
  rw [e, or_of_lt _ b2 8 (by omega)]
  omega

theorem or4_eq (d0 d1 d2 d3 : Nat) (h1 : d1 < 64) (h2 : d2 < 64) (h3 : d3 < 64) :
    d0 <<< 18 ||| d1 <<< 12 ||| d2 <<< 6 ||| d3 = d0 * 262144 + d1 * 4096 + d2 * 64 + d3 := by
  rw [Nat.shiftLeft_eq, Nat.shiftLeft_eq, Nat.shiftLeft_eq,
    or_of_lt d0 (d1 * 2 ^ 12) 18 (by omega)]
  have e : d0 * 2 ^ 18 + d1 * 2 ^ 12 = (d0 * 2 ^ 6 + d1) * 2 ^ 12 := by omega
  rw [e, or_of_lt _ (d2 * 2 ^ 6) 12 (by omega)]
  have e2 : (d0 * 2 ^ 6 + d1) * 2 ^ 12 + d2 * 2 ^ 6 = (d0 * 2 ^ 12 + d1 * 2 ^ 6 + d2) * 2 ^ 6 := by
    omega
  rw [e2, or_of_lt _ d3 6 (by omega)]
  omega

theorem decodeMap_encode : ∀ i, i < 64 → decodeMap (encode i) = i ∧ encode i ≠ 10 ∧ encode i ≠ 13 := by
  decide

theorem decodeMap_ne_small : ∀ c, c < 128 → (decodeMap c ≠ 0xFF ↔ inStdAlphabet c = true) := by
  decide

theorem decodeMap_ne_iff (c : Nat) : decodeMap c ≠ 0xFF ↔ inStdAlphabet c = true := by
  by_cases hc : c < 128
  · exact decodeMap_ne_small c hc
  · have h1 : inStdAlphabet c = false := by
      simp only [inStdAlphabet, Bool.or_eq_false_iff, Bool.and_eq_false_iff, decide_eq_false_iff_not,
        beq_eq_false_iff_ne]
      omega
    have h2 : c ∉ encodeStd := by
      intro hmem
      have : ∀ x ∈ encodeStd, x < 128 := by decide
      exact hc (this c hmem)
    have h3 : decodeMap c = 0xFF := by
      unfold decodeMap
      rw [if_neg]
      intro hlt
      exact h2 (List.indexOf_lt_length.mp hlt)
    simp [h1, h3]

theorem stripNewlines_cons_newline (c : Nat) (rest : List Nat) (h : c = 10 ∨ c = 13) :
    stripNewlines (c :: rest) = stripNewlines rest := by
  unfold stripNewlines
  rw [List.filter_cons_of_neg]
  rcases h with h | h <;> simp [h]

theorem stripNewlines_cons_other (c : Nat) (rest : List Nat) (h : ¬ (c = 10 ∨ c = 13)) :
    stripNewlines (c :: rest) = c :: stripNewlines rest := by
  unfold stripNewlines
  rw [List.filter_cons_of_pos]
  simp only [not_or] at h
  simp [h.1, h.2]

theorem stripNewlines_skipNewlines (rest : List Nat) (si : Nat) :
    stripNewlines (skipNewlines rest si).1 = stripNewlines rest := by
  induction rest generalizing si with
  | nil => rfl
  | cons c rest ih =>
    unfold skipNewlines
    by_cases h : c = 10 ∨ c = 13
    · rw [if_pos h, ih, stripNewlines_cons_newline c rest h]
    · rw [if_neg h]

theorem skipNewlines_head (rest : List Nat) (si : Nat) (c : Nat) (r : List Nat) (si2 : Nat)
    (h : skipNewlines rest si = (c :: r, si2)) : ¬ (c = 10 ∨ c = 13) := by
  induction rest generalizing si with
  | nil => simp [skipNewlines] at h
  | cons d rest ih =>
    unfold skipNewlines at h
    by_cases hd : d = 10 ∨ d = 13
    · rw [if_pos hd] at h
      exact ih _ h
    · rw [if_neg hd] at h
      simp only [Prod.mk.injEq, List.cons.injEq] at h
      rw [← h.1.1]
      exact hd

/-- Whatever `decodeLoop` accepts is, once newlines are removed, the rest of a
valid padded string whose current quantum already holds `dbuf.length`
characters. -/
theorem decodeLoop_ok (s : List Nat) : ∀ (si : Nat) (dbuf dst : List Nat),
    dbuf.length < 4 → (decodeLoop s si dbuf dst).err = none →
    (dbuf.length + (stripNewlines s).length) % 4 = 0 ∧
    ((stripNewlines s).takeWhile (fun c => c != StdPadding)).all inStdAlphabet = true ∧
    ((stripNewlines s).dropWhile (fun c => c != StdPadding) = [] ∨
      (stripNewlines s).dropWhile (fun c => c != StdPadding) = [StdPadding] ∨
      (stripNewlines s).dropWhile (fun c => c != StdPadding) = [StdPadding, StdPadding]) := by
  induction s with
  | nil =>
    intro si dbuf dst _ h
    unfold decodeLoop at h
    by_cases h0 : dbuf.length = 0
    · simp [stripNewlines, h0]
    · rw [if_neg h0] at h
      simp at h
  | cons c rest ih =>
    intro si dbuf dst hlen h
    unfold decodeLoop at h
    simp only at h
    by_cases hmap : decodeMap c ≠ 0xFF
    · rw [if_pos hmap] at h
      have halpha : inStdAlphabet c = true := (decodeMap_ne_iff c).mp hmap
      have hnl : ¬ (c = 10 ∨ c = 13) := by
        rintro (h' | h') <;> subst h' <;> simp [inStdAlphabet] at halpha
      have hpad : (c != StdPadding) = true := by
        simp only [bne_iff_ne, ne_eq]
        intro h'
        subst h'
        simp [inStdAlphabet, StdPadding] at halpha
      rw [stripNewlines_cons_other c rest hnl, List.takeWhile_cons, List.dropWhile_cons]
      simp only [hpad, if_true]
      by_cases h4 : (dbuf ++ [decodeMap c]).length = 4
      · rw [if_pos h4] at h
        have := ih _ _ _ (by simp) h
        simp only [List.length_append, List.length_singleton] at h4
        refine ⟨?_, ?_, this.2.2⟩
        · have := this.1
          simp only [List.length_nil, List.length_cons] at this ⊢
          omega
        · simp only [List.all_cons, halpha, this.2.1, Bool.and_self]
      · rw [if_neg h4] at h
        simp only [List.length_append, List.length_singleton] at h4
        have := ih _ _ _ (by simp only [List.length_append, List.length_singleton]; omega) h
        refine ⟨?_, ?_, this.2.2⟩
        · have := this.1
          simp only [List.length_append, List.length_singleton, List.length_cons, List.length_nil] at this ⊢
          omega
        · simp only [List.all_cons, halpha, this.2.1, Bool.and_self]
    · rw [if_neg hmap] at h
      by_cases hnl : c = 10 ∨ c = 13
      · rw [if_pos hnl] at h
        rw [stripNewlines_cons_newline c rest hnl]
        exact ih _ _ _ hlen h
      · rw [if_neg hnl] at h
        by_cases hpad : c ≠ StdPadding
        · rw [if_pos hpad] at h
          simp at h
        · rw [if_neg hpad] at h
          have hc : c = StdPadding := not_not.mp hpad
          subst hc
          rw [stripNewlines_cons_other _ rest hnl, List.takeWhile_cons, List.dropWhile_cons]
          simp only [bne_self_eq_false, Bool.false_eq_true, if_false, List.all_nil, true_and,
            List.length_cons, List.cons.injEq, true_and, reduceCtorEq, false_or]
          have hcases : dbuf.length = 0 ∨ dbuf.length = 1 ∨ dbuf.length = 2 ∨ dbuf.length = 3 := by
            omega
          rcases hcases with h0 | h0 | h0 | h0 <;> rw [h0] at h ⊢ <;> simp only at h
          · simp at h
          · simp at h
          · have hs := stripNewlines_skipNewlines rest (si + 1)
            rcases hsk : skipNewlines rest (si + 1) with ⟨r, si2⟩
            rw [hsk] at h hs
            cases r with
            | nil => simp at h
            | cons c2 rest2 =>
              simp only at h
              by_cases hc2 : c2 ≠ StdPadding
              · rw [if_pos hc2] at h
                simp at h
              · rw [if_neg hc2] at h
                have hc2e : c2 = StdPadding := not_not.mp hc2
                subst hc2e
                have hs2 := stripNewlines_skipNewlines rest2 (si2 + 1)
                rcases hsk2 : skipNewlines rest2 (si2 + 1) with ⟨r2, si3⟩
                rw [hsk2] at h hs2
                cases r2 with
                | nil =>
                  simp only at hs hs2
                  rw [stripNewlines_cons_other _ rest2 hnl] at hs
                  rw [← hs, ← hs2]
                  simp [stripNewlines]
                | cons c3 rest3 => simp at h
          · have hs := stripNewlines_skipNewlines rest (si + 1)
            rcases hsk : skipNewlines rest (si + 1) with ⟨r, si2⟩
            rw [hsk] at h hs
            cases r with
            | nil =>
              simp only at hs
              rw [← hs]
              simp [stripNewlines]
            | cons c2 rest2 => simp at h

theorem decodeLoop_alpha (s : Nat) (hs : s < 64) (rest : List Nat) (si : Nat) (dbuf dst : List Nat) :
    decodeLoop (encode s :: rest) si dbuf dst =
      if (dbuf ++ [s]).length = 4 then decodeLoop rest (si + 1) [] (dst ++ quantumBytes (dbuf ++ [s]) 4)
      else decodeLoop rest (si + 1) (dbuf ++ [s]) dst := by
  have h := (decodeMap_encode s hs).1
  rw [decodeLoop]
  simp only [h]
  rw [if_pos (by omega)]

theorem decodeLoop_quad (s0 s1 s2 s3 : Nat) (h0 : s0 < 64) (h1 : s1 < 64) (h2 : s2 < 64)
    (h3 : s3 < 64) (rest : List Nat) (si : Nat) (dst : List Nat) :
    decodeLoop (encode s0 :: encode s1 :: encode s2 :: encode s3 :: rest) si [] dst =
      decodeLoop rest (si + 4) [] (dst ++ quantumBytes [s0, s1, s2, s3] 4) := by
  rw [decodeLoop_alpha s0 h0, if_neg (by simp), decodeLoop_alpha s1 h1, if_neg (by simp),
    decodeLoop_alpha s2 h2, if_neg (by simp), decodeLoop_alpha s3 h3, if_pos (by simp)]
  rfl

theorem decodeLoop_pad3 (dbuf : List Nat) (hd : dbuf.length = 3) (si : Nat) (dst : List Nat) :
    decodeLoop [StdPadding] si dbuf dst = { data := dst ++ quantumBytes dbuf 3, err := none } := by
  have hm : decodeMap StdPadding = 0xFF := by decide
  rw [decodeLoop]
  simp only [hm, hd]
  simp [StdPadding, skipNewlines]

theorem decodeLoop_pad2 (dbuf : List Nat) (hd : dbuf.length = 2) (si : Nat) (dst : List Nat) :
    decodeLoop [StdPadding, StdPadding] si dbuf dst =
      { data := dst ++ quantumBytes dbuf 2, err := none } := by
  have hm : decodeMap StdPadding = 0xFF := by decide
  rw [decodeLoop]
  simp only [hm, hd]
  simp [StdPadding, skipNewlines]

theorem quantum3 (b0 b1 b2 : Nat) (h0 : b0 < 256) (h1 : b1 < 256) (h2 : b2 < 256) :
    quantumBytes [(b0 <<< 16 ||| b1 <<< 8 ||| b2) >>> 18 &&& 0x3F,
      (b0 <<< 16 ||| b1 <<< 8 ||| b2) >>> 12 &&& 0x3F,
      (b0 <<< 16 ||| b1 <<< 8 ||| b2) >>> 6 &&& 0x3F,
      (b0 <<< 16 ||| b1 <<< 8 ||| b2) &&& 0x3F] 4 = [b0, b1, b2] := by
  simp only [quantumBytes, List.getD_cons_zero, List.getD_cons_succ, and_0x3F, or3_eq b0 b1 b2 h1 h2,
    Nat.shiftRight_eq_div_pow]
  rw [or4_eq _ _ _ _ (Nat.mod_lt _ (by norm_num)) (Nat.mod_lt _ (by norm_num))
    (Nat.mod_lt _ (by norm_num))]
  simp only [List.cons.injEq, and_true]
  norm_num
  omega

theorem quantum2 (b0 b1 : Nat) (h0 : b0 < 256) (h1 : b1 < 256) :
    quantumBytes [(b0 <<< 16 ||| b1 <<< 8) >>> 18 &&& 0x3F,
      (b0 <<< 16 ||| b1 <<< 8) >>> 12 &&& 0x3F,
      (b0 <<< 16 ||| b1 <<< 8) >>> 6 &&& 0x3F] 3 = [b0, b1] := by
  have e : b0 <<< 16 ||| b1 <<< 8 = b0 * 65536 + b1 * 256 := by
    have := or3_eq b0 b1 0 h1 (by norm_num)
    simpa using this
  simp only [quantumBytes, List.getD_cons_zero, List.getD_cons_succ, List.getD_nil, and_0x3F, e,
    Nat.shiftRight_eq_div_pow]
  rw [or4_eq _ _ _ _ (Nat.mod_lt _ (by norm_num)) (Nat.mod_lt _ (by norm_num)) (by norm_num)]
  simp only [List.cons.injEq, and_true]
  norm_num
  omega

theorem quantum1 (b0 : Nat) (h0 : b0 < 256) :
    quantumBytes [(b0 <<< 16) >>> 18 &&& 0x3F, (b0 <<< 16) >>> 12 &&& 0x3F] 2 = [b0] := by
  have e : b0 <<< 16 = b0 * 65536 := by rw [Nat.shiftLeft_eq]
  simp only [quantumBytes, List.getD_cons_zero, List.getD_cons_succ, List.getD_nil, and_0x3F, e,
    Nat.shiftRight_eq_div_pow]
  rw [or4_eq _ _ _ _ (Nat.mod_lt _ (by norm_num)) (by norm_num) (by norm_num)]
  simp only [List.cons.injEq, and_true]
  norm_num
  omega

/-- Decoding what `EncodeToString` produced gives the bytes back, from any
offset and after any bytes already written. -/
theorem decodeLoop_EncodeToString (b : List Nat) : ∀ (si : Nat) (dst : List Nat),
    (∀ x ∈ b, x < 256) →
    decodeLoop (EncodeToString b) si [] dst = { data := dst ++ b, err := none } := by
  induction b using EncodeToString.induct with
  | case1 b0 b1 b2 rest ih =>
    intro si dst hb
    have h0 : b0 < 256 := hb b0 (by simp)
    have h1 : b1 < 256 := hb b1 (by simp)
    have h2 : b2 < 256 := hb b2 (by simp)
    have hr : ∀ x ∈ rest, x < 256 := fun x hx => hb x (by simp [hx])
    rw [EncodeToString]
    rw [decodeLoop_quad _ _ _ _ (by rw [and_0x3F]; omega) (by rw [and_0x3F]; omega)
      (by rw [and_0x3F]; omega) (by rw [and_0x3F]; omega), quantum3 b0 b1 b2 h0 h1 h2, ih _ _ hr]
    simp
  | case2 b0 b1 =>
    intro si dst hb
    have h0 : b0 < 256 := hb b0 (by simp)
    have h1 : b1 < 256 := hb b1 (by simp)
    rw [EncodeToString]
    rw [decodeLoop_alpha _ (by rw [and_0x3F]; omega), if_neg (by simp),
      decodeLoop_alpha _ (by rw [and_0x3F]; omega), if_neg (by simp),
      decodeLoop_alpha _ (by rw [and_0x3F]; omega), if_neg (by simp),
      decodeLoop_pad3 _ (by simp)]
    simp only [List.nil_append, List.cons_append]
    rw [quantum2 b0 b1 h0 h1]
  | case3 b0 =>
    intro si dst hb
    have h0 : b0 < 256 := hb b0 (by simp)
    rw [EncodeToString]
    rw [decodeLoop_alpha _ (by rw [and_0x3F]; omega), if_neg (by simp),
      decodeLoop_alpha _ (by rw [and_0x3F]; omega), if_neg (by simp),
      decodeLoop_pad2 _ (by simp)]
    simp only [List.nil_append, List.cons_append]
    rw [quantum1 b0 h0]
  | case4 =>
    intro si dst _
    simp [EncodeToString, decodeLoop]

/-! ## `decodeBase64ToFile` -/

theorem DecodeString_EncodeToString (b : List Nat) (hb : ∀ x ∈ b, x < 256) :
    DecodeString (EncodeToString b) = { data := b, err := none } := by
  have h := decodeLoop_EncodeToString b 0 [] hb
  simpa [DecodeString] using h

theorem DecodeString_invalid (s : List Nat) (h : validStdPadded (stripNewlines s) = false) :
    (DecodeString s).err ≠ none := by
  intro hok
  have hv := decodeLoop_ok s 0 [] [] (by simp) hok
  have : validStdPadded (stripNewlines s) = true := by
    simp only [validStdPadded, Bool.and_eq_true, Bool.or_eq_true, beq_iff_eq]
    refine ⟨⟨?_, hv.2.1⟩, or_assoc.mpr hv.2.2⟩
    have := hv.1
    simp only [List.length_nil, Nat.zero_add] at this
    exact this
  rw [this] at h
  exact Bool.noConfusion h

theorem FileSystem.read_put (fs : FileSystem) (path : String) (content : List Nat) :
    (fs.put path content).read path = some content := by
  simp [FileSystem.read, FileSystem.put]

theorem tempName_ne_empty (dir random : String) :
    dir ++ "/" ++ "cert-" ++ random ++ ".pem" ≠ "" := by
  intro h
  have hl := congrArg String.length h
  simp only [String.length_append] at hl
  have h4 : ".pem".length = 4 := by decide
  have h0 : "".length = 0 := by decide
  omega

/-- C10 (as amended).  For every byte string `b`, when the temp file can be
created and written, `decodeBase64ToFile(StdEncoding.EncodeToString(b))`
returns a non-empty temp-file path and a nil error, and the file at that path
holds exactly `b`.  For every input that, once its carriage returns and line
feeds are removed, is not valid standard padded base64, it returns the empty
path with a non-nil error and leaves the file system as it was. -/
theorem decodeBase64ToFile_spec (os : OS) (fs : FileSystem) :
    (∀ (b : List Nat) (random : String), (∀ x ∈ b, x < 256) →
      os.tempFile fs = .ok random →
      os.write (fs.put (os.tempDir ++ "/" ++ "cert-" ++ random ++ ".pem") [])
        (os.tempDir ++ "/" ++ "cert-" ++ random ++ ".pem") b = none →
      (decodeBase64ToFile os fs (EncodeToString b)).1 =
        (os.tempDir ++ "/" ++ "cert-" ++ random ++ ".pem", none) ∧
      (decodeBase64ToFile os fs (EncodeToString b)).1.1 ≠ "" ∧
      (decodeBase64ToFile os fs (EncodeToString b)).2.read
        (decodeBase64ToFile os fs (EncodeToString b)).1.1 = some b) ∧
    (∀ s : List Nat, validStdPadded (stripNewlines s) = false →
      (decodeBase64ToFile os fs s).1.1 = "" ∧
      (decodeBase64ToFile os fs s).1.2 ≠ none ∧
      (decodeBase64ToFile os fs s).2 = fs) := by
  refine ⟨fun b random hb ht hw => ?_, fun s hs => ?_⟩
  · have hd := DecodeString_EncodeToString b hb
    have hrun : decodeBase64ToFile os fs (EncodeToString b) =
        ((os.tempDir ++ "/" ++ "cert-" ++ random ++ ".pem", none),
          (fs.put (os.tempDir ++ "/" ++ "cert-" ++ random ++ ".pem") []).put
            (os.tempDir ++ "/" ++ "cert-" ++ random ++ ".pem") b) := by
      simp only [decodeBase64ToFile, hd, TempFile, ht, hw]
    rw [hrun]
    exact ⟨rfl, tempName_ne_empty _ _, FileSystem.read_put _ _ _⟩
  · have hd := DecodeString_invalid s hs
    cases he : (DecodeString s).err with
    | none => exact absurd he hd
    | some e => simp [decodeBase64ToFile, he]

/-- Witness for C10: the three bytes of "key" and the malformed input "eA=". -/
theorem decodeBase64ToFile_spec_witness :
    (decodeBase64ToFile healthyOS emptyFS (EncodeToString (bytes "key"))).2.read
        (decodeBase64ToFile healthyOS emptyFS (EncodeToString (bytes "key"))).1.1
      = some (bytes "key") ∧
    (decodeBase64ToFile healthyOS emptyFS (bytes "eA=")).2 = emptyFS :=
  ⟨((decodeBase64ToFile_spec healthyOS emptyFS).1 (bytes "key") "0" (by decide) rfl rfl).2.2,
    ((decodeBase64ToFile_spec healthyOS emptyFS).2 (bytes "eA=") (by decide)).2.2⟩

/-- C10 as stated fails: "eA==" followed by a line feed is not valid standard
padded base64, yet `decodeBase64ToFile` accepts it, since the decoder skips
line feeds: it returns a path with a nil error and creates the file. -/
theorem decodeBase64ToFile_accepts_newline :
    validStdPadded (bytes "eA==\n") = false ∧
    decodeBase64ToFile healthyOS emptyFS (bytes "eA==\n") =
      (("/tmp/cert-0.pem", none), { files := [("/tmp/cert-0.pem", bytes "x")] }) := by
  decide

/-! ## `userinfocache` -/

theorem Cache.Get_Set {α : Type} (c : Cache α) (t now : Int) (k : String) (v : α) (d : Int) :
    (c.Set t k v d).Get now k =
      if (if (if d = DefaultExpiration then c.defaultExpiration else d) > 0
            then t + (if d = DefaultExpiration then c.defaultExpiration else d) else 0) > 0 ∧
          now > (if (if d = DefaultExpiration then c.defaultExpiration else d) > 0
            then t + (if d = DefaultExpiration then c.defaultExpiration else d) else 0)
      then none else some v := by
  simp [Cache.Get, Cache.Set]

/-- C7 (as amended).  The cache `userinfocache` is built by
`cache.New(5*time.Minute, 10*time.Minute)`: its default expiration is five
minutes and its janitor sweeps every ten minutes.  For every key `k` and value
`v` put at a time `t` (not before the Unix epoch) with the default expiry,
whatever else the cache holds, `Get(k)` returns `v` at every time up to and
including `t` + 5 minutes and misses at every later time, with no intervening
write; the janitor's ticks are ten minutes apart, and a sweep later than
`t` + 5 minutes removes the entry. -/
theorem userinfocache_expiry {α : Type} (items : List (String × Item α)) (k : String) (v : α)
    (t now : Int) (ht : 0 ≤ t) :
    (userinfocache : Cache α).defaultExpiration = 5 * Minute ∧
    (userinfocache : Cache α).cleanupInterval = 10 * Minute ∧
    (now ≤ t + 5 * Minute →
      ({ (userinfocache : Cache α) with items := items }.Set t k v DefaultExpiration).Get now k
        = some v) ∧
    (t + 5 * Minute < now →
      ({ (userinfocache : Cache α) with items := items }.Set t k v DefaultExpiration).Get now k
        = none) ∧
    (∀ (created : Int) (n : Nat),
      (userinfocache : Cache α).janitorTick created (n + 1) -
        (userinfocache : Cache α).janitorTick created n = 10 * Minute) ∧
    (t + 5 * Minute < now →
      ((({ (userinfocache : Cache α) with items := items }.Set t k v DefaultExpiration).DeleteExpired
        now).items.find? (fun (it : String × Item α) => it.1 == k)).isNone = true) := by
  have hm : (0 : Int) < 5 * Minute := by decide
  have hde : (userinfocache : Cache α).defaultExpiration = 5 * Minute := by
    simp [userinfocache, New, Minute, Second]
  refine ⟨hde, rfl, fun h => ?_, fun h => ?_, fun created n => ?_, fun h => ?_⟩
  · rw [Cache.Get_Set]
    simp only [DefaultExpiration, if_true, hde, hm, gt_iff_lt]
    rw [if_neg]
    omega
  · rw [Cache.Get_Set]
    simp only [DefaultExpiration, if_true, hde, hm, gt_iff_lt]
    rw [if_pos]
    omega
  · simp only [Cache.janitorTick, userinfocache, New]
    push_cast
    ring
  · have hexp : (0 : Int) < t + 5 * Minute ∧ t + 5 * Minute < now := ⟨by omega, h⟩
    simp only [Cache.DeleteExpired, Cache.Set, DefaultExpiration, if_true, hde, hm, gt_iff_lt]
    rw [List.filter_cons_of_neg (by simpa using hexp)]
    simp only [List.filter_filter, Option.isNone_iff_eq_none, List.find?_eq_none,
      List.mem_filter, Bool.and_eq_true, bne_iff_ne, ne_eq]
    intro x hx
    simpa using hx.2.2

/-- Witness for C7: an entry put at the epoch is there after five minutes. -/
theorem userinfocache_expiry_witness :
    ({ (userinfocache : Cache Nat) with items := [] }.Set 0 "tok-A" 7 DefaultExpiration).Get
      (5 * Minute) "tok-A" = some 7 :=
  (userinfocache_expiry [] "tok-A" 7 0 (5 * Minute) (by decide)).2.2.1 (by decide)

/-- C7 as stated fails: six minutes after the put, four minutes short of the
ten the claim gives the entry, `Get` misses. -/
theorem userinfocache_miss_after_six_minutes :
    (0 : Int) + 6 * Minute < 0 + 10 * Minute ∧
    ((userinfocache : Cache Nat).Set 0 "tok-A" 7 DefaultExpiration).Get (0 + 6 * Minute) "tok-A"
      = none ∧
    (userinfocache : Cache Nat).janitorTick 0 0 = 10 * Minute := by
  decide

/-! ## `main` -/

theorem mem_untilExit (l : List Event) (e : Event) (h : e ∈ untilExit l) : e ∈ l := by
  induction l with
  | nil => simp [untilExit] at h
  | cons x xs ih =>
    unfold untilExit at h
    by_cases hx : x.isExit = true
    · rw [if_pos hx] at h
      simp only [List.mem_singleton] at h
      simp [h]
    · rw [if_neg hx] at h
      rcases List.mem_cons.mp h with h | h
      · simp [h]
      · exact List.mem_cons_of_mem _ (ih h)

theorem mem_interleave {α : Type} (sched : List Bool) (xs ys : List α) (e : α)
    (h : e ∈ interleave sched xs ys) : e ∈ xs ∨ e ∈ ys := by
  induction sched, xs, ys using interleave.induct with
  | case1 sched ys =>
    rw [interleave] at h
    exact Or.inr h
  | case2 sched xs hxs =>
    rw [interleave] at h
    · exact Or.inl h
    · exact hxs
  | case3 xs ys hxs hys =>
    rw [interleave] at h
    · exact List.mem_append.mp h
    · exact hxs
    · exact hys
  | case4 sched x xs ys hys ih =>
    rw [interleave] at h
    · rcases List.mem_cons.mp h with h | h
      · exact Or.inl (by simp [h])
      · rcases ih h with h | h
        · exact Or.inl (List.mem_cons_of_mem _ h)
        · exact Or.inr h
    · exact hys
  | case5 sched xs y ys hxs ih =>
    rw [interleave] at h
    · rcases List.mem_cons.mp h with h | h
      · exact Or.inr (by simp [h])
      · rcases ih h with h | h
        · exact Or.inl h
        · exact Or.inr (List.mem_cons_of_mem _ h)
    · exact hxs

theorem mem_decodeMaterial (w : World) (e : Event) (h : e ∈ (decodeMaterial w).2.1) :
    ∃ msg, e = .logError msg := by
  unfold decodeMaterial at h
  split at h
  · simp only [List.mem_append] at h
    rcases h with h | h <;> split at h <;> simp at h <;> exact ⟨_, h⟩
  · simp at h

/-- What the listener goroutine can do: log, start one of the two listeners,
or exit with status 1. -/
theorem mem_listenerGoroutine (w : World) (e : Event) (h : e ∈ listenerGoroutine w) :
    (∃ msg, e = .logError msg) ∨ (∃ msg, e = .logInfo msg) ∨ (∃ msg, e = .logFatal msg) ∨
      e = .exit 1 ∨ e = .listenAndServe (outerSrv w) ∨
      ∃ certFile keyFile, e = .listenAndServeTLS (innerSrv w) certFile keyFile := by
  unfold listenerGoroutine at h
  simp only at h
  split at h
  · simp only [List.mem_append, List.mem_cons, List.mem_singleton, List.not_mem_nil,
      or_false] at h
    rcases h with ((h | h) | h | h) | h
    · exact Or.inl (mem_decodeMaterial w e h)
    · split at h <;> simp at h
      exact Or.inl ⟨_, h⟩
    · exact Or.inr (Or.inl ⟨_, h⟩)
    · exact Or.inr (Or.inr (Or.inr (Or.inr (Or.inr ⟨_, _, h⟩))))
    · split at h <;> simp at h
      exact Or.inl ⟨_, h⟩
  · simp only [List.mem_append, List.mem_cons, List.mem_singleton, List.not_mem_nil,
      or_false] at h
    rcases h with (h | h) | h
    · exact Or.inl (mem_decodeMaterial w e h)
    · exact Or.inr (Or.inr (Or.inr (Or.inr (Or.inl h))))
    · split at h <;> simp at h
      rcases h with h | h
      · exact Or.inr (Or.inr (Or.inl ⟨_, h⟩))
      · exact Or.inr (Or.inr (Or.inr (Or.inl h)))

/-- What the main goroutine can do once the listener goroutine is started:
log, receive the signal, shut the outer `srv` down, and exit. -/
theorem mem_awaitShutdown (w : World) (e : Event) (h : e ∈ awaitShutdown w) :
    (∃ msg, e = .logError msg) ∨ (∃ msg, e = .logInfo msg) ∨ e = .signal ∨
      e = .shutdown (outerSrv w) (5 * Second) ∨ (∃ code, e = .exit code) := by
  unfold awaitShutdown at h
  split at h
  · simp only [List.mem_append, List.mem_cons, List.mem_singleton, List.not_mem_nil,
      or_false] at h
    rcases h with (h | h | h | h) | h
    · exact Or.inr (Or.inl ⟨_, h⟩)
    · exact Or.inr (Or.inr (Or.inl h))
    · exact Or.inr (Or.inl ⟨_, h⟩)
    · exact Or.inr (Or.inr (Or.inr (Or.inl h)))
    · split at h <;> simp at h
      · rcases h with h | h
        · exact Or.inl ⟨_, h⟩
        · exact Or.inr (Or.inr (Or.inr (Or.inr ⟨_, h⟩)))
      · rcases h with h | h
        · exact Or.inr (Or.inl ⟨_, h⟩)
        · exact Or.inr (Or.inr (Or.inr (Or.inr ⟨_, h⟩)))
  · simp only [List.mem_singleton] at h
    exact Or.inr (Or.inl ⟨_, h⟩)

/-- The events after the `go` statement hold no store failure and no call of
`connectOnStartup`. -/
theorem mem_serving (w : World) (sched : List Bool) (e : Event)
    (h : e ∈ untilExit (interleave sched (listenerGoroutine w) (awaitShutdown w))) :
    e.isStoreFailure = false ∧ e ≠ .connectOnStartupCalled := by
  rcases mem_interleave _ _ _ _ (mem_untilExit _ _ h) with h | h
  · rcases mem_listenerGoroutine w e h with ⟨_, h⟩ | ⟨_, h⟩ | ⟨_, h⟩ | h | h | ⟨_, _, h⟩ <;>
      subst h <;> simp [Event.isStoreFailure]
  · rcases mem_awaitShutdown w e h with ⟨_, h⟩ | ⟨_, h⟩ | h | h | ⟨_, h⟩ <;>
      subst h <;> simp [Event.isStoreFailure]

/-- The shape of the boot sequence: when the `go` statement is reached the
schema was ensured and `connectOnStartup` was called and returned, in that
order; when it is not, the process has ended.  No listener is started and
`connectOnStartup` is not called after a store failure. -/
theorem boot_shape (w : World) :
    (boot w).events.all (fun e => !e.isListen) = true ∧
    ((boot w).started = true →
      List.Sublist [Event.dbExec sqlStmt none, .connectOnStartupCalled, .connectOnStartupReturned]
        (boot w).events ∧
      (boot w).events.all (fun e => !e.isStoreFailure) = true) ∧
    ((boot w).started = false →
      (∃ e, (boot w).events.getLast? = some e ∧ e.isExit = true) ∧
      ((boot w).events.any Event.isStoreFailure = true →
        Event.connectOnStartupCalled ∉ (boot w).events)) := by
  unfold boot bootOpen bootStore
  rcases hx : w.executable with err | ex
  · simp [Event.isListen, Event.isExit, Event.isStoreFailure]
  · cases hd : w.dbDirMissing <;> cases hm : w.mkdirAll (Dir ex ++ "/dbdata") <;>
      cases ho : w.sqlOpen "mysql" (dsn w) <;> cases he : w.dbExec sqlStmt <;>
      cases hs : w.sqlstoreNew (storeDialect w) (storeLocation w (Dir ex)) <;>
      cases hc : w.connectOnStartup <;>
      simp [hd, hm, ho, he, hs, hc, Event.isListen, Event.isExit, Event.isStoreFailure] <;>
      repeat (first | exact List.Sublist.slnil | apply List.Sublist.cons₂ | apply List.Sublist.cons)

/-- C4.  In every execution of `main`, whenever a listener is started
(`ListenAndServe` or `ListenAndServeTLS`), the events before it include, in
this order, the successful `CREATE TABLE IF NOT EXISTS users`, the call of
`s.connectOnStartup()` and its return. -/
theorem main_listens_after_reconciliation (w : World) (sched : List Bool)
    (pre post : List Event) (e : Event)
    (h : main w sched = pre ++ e :: post) (he : e.isListen = true) :
    List.Sublist
      [Event.dbExec sqlStmt none, .connectOnStartupCalled, .connectOnStartupReturned] pre := by
  have hshape := boot_shape w
  have hno : ∀ x ∈ (boot w).events, x.isListen = false := by
    intro x hx
    have := List.all_eq_true.mp hshape.1 x hx
    simpa using this
  unfold main at h
  simp only at h
  by_cases hs : (boot w).started = true
  · rw [if_pos hs] at h
    have hsub := (hshape.2.1 hs).1
    rcases List.append_eq_append_iff.mp h with ⟨a, hpre, _⟩ | ⟨c, hb, hc⟩
    · rw [hpre]
      exact hsub.trans (List.sublist_append_left _ _)
    · cases c with
      | nil =>
        simp only [List.append_nil] at hb
        rw [← hb]
        exact hsub
      | cons x c =>
        simp only [List.cons_append, List.cons.injEq] at hc
        have hmem : e ∈ (boot w).events := by
          rw [hb, ← hc.1]
          simp
        rw [hno e hmem] at he
        exact Bool.noConfusion he
  · rw [if_neg hs] at h
    have hmem : e ∈ (boot w).events := by
      rw [h]
      simp
    rw [hno e hmem] at he
    exact Bool.noConfusion he

/-- Witness for C4: the healthy world without TLS material, where the plain
listener is the seventh event. -/
theorem main_listens_after_reconciliation_witness :
    List.Sublist
      [Event.dbExec sqlStmt none, .connectOnStartupCalled, .connectOnStartupReturned]
      ((main (healthyWorld [] []) []).take 6) :=
  main_listens_after_reconciliation (healthyWorld [] []) []
    ((main (healthyWorld [] []) []).take 6) ((main (healthyWorld [] []) []).drop 7)
    (.listenAndServe (outerSrv (healthyWorld [] []))) (by decide) rfl

/-- C9 (as amended).  In every execution of `main` in which `sql.Open` returns
an error or the `CREATE TABLE IF NOT EXISTS users` statement returns an error,
the process ends, `connectOnStartup` is never called and no HTTP or HTTPS
listener is ever started: the failure is a boot error path that reaches
process exit before serving. -/
theorem main_store_failure (w : World) (sched : List Bool)
    (hfail : (main w sched).any Event.isStoreFailure = true) :
    (∃ e, (main w sched).getLast? = some e ∧ e.isExit = true) ∧
    Event.connectOnStartupCalled ∉ main w sched ∧
    (main w sched).all (fun e => !e.isListen) = true := by
  have hshape := boot_shape w
  by_cases hs : (boot w).started = true
  · exfalso
    have hmain : main w sched = (boot w).events ++
        untilExit (interleave sched (listenerGoroutine w) (awaitShutdown w)) := by
      simp [main, hs]
    rw [hmain] at hfail
    rcases List.any_eq_true.mp hfail with ⟨x, hx, hxf⟩
    rcases List.mem_append.mp hx with hx | hx
    · have := List.all_eq_true.mp (hshape.2.1 hs).2 x hx
      simp [hxf] at this
    · have := (mem_serving w sched x hx).1
      rw [this] at hxf
      exact Bool.noConfusion hxf
  · have hs : (boot w).started = false := by simpa using hs
    have hmain : main w sched = (boot w).events := by simp [main, hs]
    rw [hmain] at hfail ⊢
    exact ⟨(hshape.2.2 hs).1, (hshape.2.2 hs).2 hfail, hshape.1⟩

/-- Witness for C9: the world in which `db.Exec` fails; the process ends on
the panic, before `connectOnStartup` and before any listener. -/
theorem main_store_failure_witness :
    (main brokenSchemaWorld []).any Event.isStoreFailure = true ∧
    (main brokenSchemaWorld []).getLast? =
      some (.panic (.str ("\"access denied\": " ++ sqlStmt ++ "\n"))) ∧
    Event.connectOnStartupCalled ∉ main brokenSchemaWorld [] ∧
    (main brokenSchemaWorld []).all (fun e => !e.isListen) = true :=
  ⟨by decide, by decide, (main_store_failure brokenSchemaWorld [] (by decide)).2⟩

/-- C9 as stated fails in its last part: the store opens and the schema is
ensured, so there is no store failure, yet `sqlstore.New` fails and the process
ends on a panic before any listener is started. -/
theorem main_device_store_failure :
    main brokenDeviceStoreWorld [] =
      [.sqlOpen "mysql" "wuzapi:secret@tcp(db:3306)/wuzapi?parseTime=true" none,
       .dbExec sqlStmt none,
       .sqlstoreNew "sqlite"
          "file:/app/dbdata/main.db?_pragma=foreign_keys(1)&_busy_timeout=3000"
          (some "unable to open database file"),
       .panic (.error "unable to open database file")] ∧
    (main brokenDeviceStoreWorld []).any Event.isStoreFailure = false ∧
    (main brokenDeviceStoreWorld []).all (fun e => !e.isListen) = true := by
  decide

theorem listeners_append (xs ys : List Event) :
    listeners (xs ++ ys) = listeners xs ++ listeners ys := by
  induction xs with
  | nil => rfl
  | cons x xs ih => cases x <;> simp [listeners, ih]

theorem listeners_eq_nil (xs : List Event) (h : ∀ e ∈ xs, e.isListen = false) :
    listeners xs = [] := by
  induction xs with
  | nil => rfl
  | cons x xs ih =>
    have hx := h x (by simp)
    have hxs := ih (fun e he => h e (List.mem_cons_of_mem _ he))
    cases x <;> simp [listeners, hxs, Event.isListen] at hx ⊢

theorem listeners_decodeMaterial (w : World) : listeners (decodeMaterial w).2.1 = [] := by
  apply listeners_eq_nil
  intro e he
  rcases mem_decodeMaterial w e he with ⟨msg, rfl⟩
  rfl

/-- The listener goroutine starts exactly one listener: the HTTPS one when
both paths are non-empty, the plain one otherwise. -/
theorem listeners_listenerGoroutine (w : World) :
    listeners (listenerGoroutine w) =
      if (decodeMaterial w).1.1 ≠ "" ∧ (decodeMaterial w).1.2 ≠ "" then [innerSrv w]
      else [outerSrv w] := by
  unfold listenerGoroutine
  simp only
  split
  · simp only [listeners_append, listeners_decodeMaterial, List.nil_append]
    have h1 : listeners (if LoadX509KeyPairFails w (decodeMaterial w).2.2 (decodeMaterial w).1.1
        (decodeMaterial w).1.2 = true then
        [Event.logError "Erro ao carregar certificado SSL:"] else []) = [] := by
      split <;> rfl
    have h2 : listeners (match ListenAndServeTLSFails w (decodeMaterial w).2.2 (innerSrv w)
        (decodeMaterial w).1.1 (decodeMaterial w).1.2 with
        | some _ => [Event.logError "Startup failed:"]
        | none => []) = [] := by
      split <;> rfl
    rw [h1, h2]
    rfl
  · simp only [listeners_append, listeners_decodeMaterial, List.nil_append]
    have h2 : listeners (match w.listen (outerSrv w) with
        | some _ => [Event.logFatal "Startup failed", Event.exit 1]
        | none => []) = [] := by
      split <;> rfl
    rw [h2]
    rfl

theorem decodeBase64ToFile_path (os : OS) (fs : FileSystem) (s : List Nat) :
    ((decodeBase64ToFile os fs s).1.2 = none → (decodeBase64ToFile os fs s).1.1 ≠ "") ∧
    ((decodeBase64ToFile os fs s).1.2 ≠ none → (decodeBase64ToFile os fs s).1.1 = "") := by
  unfold decodeBase64ToFile TempFile
  simp only
  cases hd : (DecodeString s).err with
  | some e => simp
  | none =>
    cases ht : os.tempFile fs with
    | error msg => simp
    | ok random =>
      simp only
      cases hw : os.write (fs.put (os.tempDir ++ "/" ++ "cert-" ++ random ++ ".pem") [])
          (os.tempDir ++ "/" ++ "cert-" ++ random ++ ".pem") (DecodeString s).data with
      | some e => simp
      | none =>
        simp only [ne_eq, not_true_eq_false, false_implies, and_true, true_implies]
        exact tempName_ne_empty _ _

theorem listeners_untilExit (l : List Event) : listeners (untilExit l) <+: listeners l := by
  induction l with
  | nil => simp [untilExit]
  | cons x xs ih =>
    unfold untilExit
    by_cases hx : x.isExit = true
    · rw [if_pos hx]
      cases x <;> simp [listeners, Event.isExit] at hx ⊢
    · rw [if_neg hx]
      cases x <;> simp [listeners, ih, List.prefix_cons_inj]

theorem listeners_interleave (sched : List Bool) (xs ys : List Event)
    (h : ∀ e ∈ ys, e.isListen = false) :
    listeners (interleave sched xs ys) = listeners xs := by
  induction sched, xs, ys using interleave.induct with
  | case1 sched ys =>
    rw [interleave]
    exact listeners_eq_nil ys h
  | case2 sched xs hxs =>
    rw [interleave]
    exact hxs
  | case3 xs ys hxs hys =>
    rw [interleave, listeners_append, listeners_eq_nil ys h, List.append_nil]
    · exact hxs
    · exact hys
  | case4 sched x xs ys hys ih =>
    rw [interleave]
    · cases x <;> simp [listeners, ih h]
    · exact hys
  | case5 sched xs y ys hxs ih =>
    rw [interleave]
    · have hy := h y (by simp)
      have hys := ih (fun e he => h e (List.mem_cons_of_mem _ he))
      cases y <;> simp [listeners, hys, Event.isListen] at hy ⊢
    · exact hxs

/-- In every execution of `main` the listeners started are listeners of the
goroutine, in the goroutine's order. -/
theorem listeners_main (w : World) (sched : List Bool) :
    listeners (main w sched) <+: listeners (listenerGoroutine w) := by
  have hshape := boot_shape w
  have hboot : listeners (boot w).events = [] := by
    apply listeners_eq_nil
    intro e he
    have := List.all_eq_true.mp hshape.1 e he
    simpa using this
  have hawait : ∀ e ∈ awaitShutdown w, e.isListen = false := by
    intro e he
    rcases mem_awaitShutdown w e he with ⟨_, h⟩ | ⟨_, h⟩ | h | h | ⟨_, h⟩ <;> subst h <;> rfl
  unfold main
  simp only
  split
  · rw [listeners_append, hboot, List.nil_append]
    have := listeners_untilExit (interleave sched (listenerGoroutine w) (awaitShutdown w))
    rw [listeners_interleave sched _ _ hawait] at this
    exact this
  · rw [hboot]
    exact List.nil_prefix

theorem untilExit_append (xs ys : List Event) (h : ∀ e ∈ xs, e.isExit = false) :
    untilExit (xs ++ ys) = xs ++ untilExit ys := by
  induction xs with
  | nil => rfl
  | cons x xs ih =>
    have hx : ¬ (x.isExit = true) := by simp [h x (by simp)]
    rw [List.cons_append, untilExit, if_neg hx,
      ih (fun e he => h e (List.mem_cons_of_mem _ he))]
    rfl

/-- The listener goroutine does nothing after it has ended the process. -/
theorem untilExit_listenerGoroutine (w : World) :
    untilExit (listenerGoroutine w) = listenerGoroutine w := by
  have hlogs : ∀ e ∈ (decodeMaterial w).2.1, e.isExit = false := by
    intro e he
    rcases mem_decodeMaterial w e he with ⟨msg, rfl⟩
    rfl
  unfold listenerGoroutine
  simp only
  split
  · rw [List.append_assoc, List.append_assoc, untilExit_append _ _ hlogs]
    congr 1
    split <;> split <;> simp [untilExit, Event.isExit]
  · rw [List.append_assoc, untilExit_append _ _ hlogs]
    congr 1
    split <;> simp [untilExit, Event.isExit]

theorem listeners_cons (x : Event) (l : List Event) :
    listeners (x :: l) = listeners [x] ++ listeners l :=
  listeners_append [x] l

theorem untilExit_tail (x : Event) (xs : List Event) (h : untilExit (x :: xs) = x :: xs) :
    untilExit xs = xs ∧ (x.isExit = true → xs = []) := by
  unfold untilExit at h
  by_cases hx : x.isExit = true
  · rw [if_pos hx] at h
    have hxs : xs = [] := by simpa using h.symm
    subst hxs
    exact ⟨rfl, fun _ => rfl⟩
  · rw [if_neg hx] at h
    exact ⟨by simpa using h, fun hx2 => absurd hx2 hx⟩

/-- When the goroutine `xs` runs to its end before `ys` takes a step, every
listener of `xs` is started. -/
theorem listeners_untilExit_append (xs ys : List Event) (hx : untilExit xs = xs)
    (hys : ∀ e ∈ ys, e.isListen = false) :
    listeners (untilExit (xs ++ ys)) = listeners xs := by
  induction xs with
  | nil =>
    have hp := listeners_untilExit ys
    rw [listeners_eq_nil ys hys] at hp
    simpa using hp
  | cons x xs ih =>
    have ht := untilExit_tail x xs hx
    by_cases hxe : x.isExit = true
    · rw [ht.2 hxe]
      simp [untilExit, hxe]
    · rw [List.cons_append, untilExit, if_neg hxe, listeners_cons, ih ht.1, ← listeners_cons]

/-- When the other goroutine `ys` neither listens nor ends the process, every
listener of `xs` is started, whatever the schedule. -/
theorem listeners_untilExit_interleave (sched : List Bool) (xs ys : List Event)
    (hx : untilExit xs = xs) (hys : ∀ e ∈ ys, e.isListen = false ∧ e.isExit = false) :
    listeners (untilExit (interleave sched xs ys)) = listeners xs := by
  induction sched, xs, ys using interleave.induct with
  | case1 sched ys =>
    rw [interleave]
    have hp := listeners_untilExit ys
    rw [listeners_eq_nil ys (fun e he => (hys e he).1)] at hp
    simpa [listeners] using hp
  | case2 sched xs hxs =>
    rw [interleave, hx]
    exact hxs
  | case3 xs ys hxs hys2 =>
    rw [interleave]
    · exact listeners_untilExit_append xs ys hx (fun e he => (hys e he).1)
    · exact hxs
    · exact hys2
  | case4 sched x xs ys hys2 ih =>
    rw [interleave]
    · have ht := untilExit_tail x xs hx
      by_cases hxe : x.isExit = true
      · rw [ht.2 hxe]
        simp [untilExit, hxe]
      · rw [untilExit, if_neg hxe, listeners_cons, ih ht.1 hys, ← listeners_cons]
    · exact hys2
  | case5 sched xs y ys hxs ih =>
    rw [interleave]
    · have hy := hys y (by simp)
      have hye : ¬ (y.isExit = true) := by simp [hy.2]
      rw [untilExit, if_neg hye, listeners_cons,
        ih hx (fun e he => hys e (List.mem_cons_of_mem _ he)),
        listeners_eq_nil [y] (by simpa using hy.1)]
      rfl
    · exact hxs

theorem interleave_nil {α : Type} (xs ys : List α) : interleave [] xs ys = xs ++ ys := by
  cases xs with
  | nil => simp [interleave]
  | cons x xs =>
    cases ys with
    | nil => simp [interleave]
    | cons y ys => simp [interleave]

/-- Once the `go` statement is reached, `main` starts the listeners of the
goroutine: when the goroutine is scheduled first, and under every schedule
when no signal arrives to end the process. -/
theorem listeners_main_eq (w : World) (hb : (boot w).started = true) :
    listeners (main w []) = listeners (listenerGoroutine w) ∧
    (w.signalled = false →
      ∀ sched, listeners (main w sched) = listeners (listenerGoroutine w)) := by
  have hshape := boot_shape w
  have hboot : listeners (boot w).events = [] := by
    apply listeners_eq_nil
    intro e he
    have := List.all_eq_true.mp hshape.1 e he
    simpa using this
  have hawait : ∀ e ∈ awaitShutdown w, e.isListen = false := by
    intro e he
    rcases mem_awaitShutdown w e he with ⟨_, h⟩ | ⟨_, h⟩ | h | h | ⟨_, h⟩ <;> subst h <;> rfl
  have hmain : ∀ sched, listeners (main w sched) =
      listeners (untilExit (interleave sched (listenerGoroutine w) (awaitShutdown w))) := by
    intro sched
    unfold main
    simp only
    rw [if_pos hb, listeners_append, hboot, List.nil_append]
  refine ⟨?_, fun hsig sched => ?_⟩
  · rw [hmain, interleave_nil]
    exact listeners_untilExit_append _ _ (untilExit_listenerGoroutine w) hawait
  · rw [hmain]
    apply listeners_untilExit_interleave _ _ _ (untilExit_listenerGoroutine w)
    intro e he
    unfold awaitShutdown at he
    rw [hsig] at he
    simp only [Bool.false_eq_true, if_false, List.mem_singleton] at he
    subst he
    exact ⟨rfl, rfl⟩

/-- C6 (as amended).  Take an execution of `main` whose boot sequence reaches
the `go` statement.  When both `CERTIFICATE` and `SSLKEY` are configured and
valid (both are decoded into temp files without error and the two files form a
valid X.509 key pair), `main` serves HTTPS instead of plain HTTP: the goroutine
logs no error and calls `ListenAndServeTLS` on `address:443`, which fails only
if the address cannot be bound; the HTTPS listener is the one listener started
when the goroutine is scheduled first, and under every schedule when no signal
ends the process first; and under no schedule is the plain HTTP listener
(`address:port`) started.  When either value is absent, the same holds with
the plain HTTP listener as the only listener started. -/
theorem main_listeners (w : World) (hb : (boot w).started = true) :
    ((w.environ.CERTIFICATE = [] ∨ w.environ.SSLKEY = []) →
      listeners (main w []) = [outerSrv w] ∧
      (w.signalled = false → ∀ sched, listeners (main w sched) = [outerSrv w]) ∧
      (∀ sched, listeners (main w sched) <+: [outerSrv w])) ∧
    (w.environ.CERTIFICATE ≠ [] → w.environ.SSLKEY ≠ [] →
      (decodeBase64ToFile w.os w.fs w.environ.CERTIFICATE).1.2 = none →
      (decodeBase64ToFile w.os (decodeBase64ToFile w.os w.fs w.environ.CERTIFICATE).2
        w.environ.SSLKEY).1.2 = none →
      LoadX509KeyPairFails w (decodeMaterial w).2.2 (decodeMaterial w).1.1
        (decodeMaterial w).1.2 = false →
      listeners (main w []) = [innerSrv w] ∧
      (w.signalled = false → ∀ sched, listeners (main w sched) = [innerSrv w]) ∧
      (∀ sched, listeners (main w sched) <+: [innerSrv w]) ∧
      ListenAndServeTLSFails w (decodeMaterial w).2.2 (innerSrv w) (decodeMaterial w).1.1
        (decodeMaterial w).1.2 = w.listen (innerSrv w) ∧
      (w.listen (innerSrv w) = none →
        listenerGoroutine w =
          [.logInfo "Starting HTTPS server...",
           .listenAndServeTLS (innerSrv w) (decodeMaterial w).1.1 (decodeMaterial w).1.2])) ∧
    (outerSrv w).Addr = address w ++ ":" ++ w.port ∧
    (innerSrv w).Addr = address w ++ ":443" ∧
    innerSrv w ≠ outerSrv w := by
  have heq := listeners_main_eq w hb
  refine ⟨fun h => ?_, fun hc hk h1 h2 hv => ?_, rfl, rfl, ?_⟩
  · have hg : listeners (listenerGoroutine w) = [outerSrv w] := by
      rw [listeners_listenerGoroutine, if_neg]
      have hm : decodeMaterial w = (("", ""), [], w.fs) := by
        unfold decodeMaterial
        rw [if_neg]
        rcases h with h | h <;> simp [h]
      simp [hm]
    rw [← hg]
    exact ⟨heq.1, heq.2, listeners_main w⟩
  · have hm : decodeMaterial w =
        (((decodeBase64ToFile w.os w.fs w.environ.CERTIFICATE).1.1,
          (decodeBase64ToFile w.os (decodeBase64ToFile w.os w.fs w.environ.CERTIFICATE).2
            w.environ.SSLKEY).1.1), [],
          (decodeBase64ToFile w.os (decodeBase64ToFile w.os w.fs w.environ.CERTIFICATE).2
            w.environ.SSLKEY).2) := by
      unfold decodeMaterial
      rw [if_pos ⟨hc, hk⟩]
      simp [h1, h2]
    have hpaths : (decodeMaterial w).1.1 ≠ "" ∧ (decodeMaterial w).1.2 ≠ "" := by
      rw [hm]
      exact ⟨(decodeBase64ToFile_path _ _ _).1 h1, (decodeBase64ToFile_path _ _ _).1 h2⟩
    have hlogs : (decodeMaterial w).2.1 = [] := by rw [hm]
    have hg : listeners (listenerGoroutine w) = [innerSrv w] := by
      rw [listeners_listenerGoroutine, if_pos hpaths]
    have hfails : ListenAndServeTLSFails w (decodeMaterial w).2.2 (innerSrv w)
        (decodeMaterial w).1.1 (decodeMaterial w).1.2 = w.listen (innerSrv w) := by
      unfold ListenAndServeTLSFails
      cases hl : w.listen (innerSrv w) <;> simp [hv]
    rw [← hg]
    refine ⟨heq.1, heq.2, listeners_main w, hfails, fun hl => ?_⟩
    unfold listenerGoroutine
    simp only
    rw [if_pos hpaths, hlogs, hv, hfails, hl]
    rfl
  · intro h
    have := congrArg Server.var h
    simp [innerSrv, outerSrv] at this

/-- Witness for C6: the healthy world with TLS material that decodes and is a
valid key pair. -/
theorem main_listeners_witness :
    listeners (main tlsWorld []) = [innerSrv tlsWorld] ∧
    listenerGoroutine tlsWorld =
      [.logInfo "Starting HTTPS server...",
       .listenAndServeTLS (innerSrv tlsWorld) "/tmp/cert-0.pem" "/tmp/cert-1.pem"] :=
  have h := (main_listeners tlsWorld (by decide)).2.1 (by decide) (by decide) (by decide)
    (by decide) (by decide)
  ⟨h.1, h.2.2.2.2 (by decide)⟩

/-- C6 as stated fails: with TLS material that decodes and is a valid key
pair, the HTTPS listener on `0.0.0.0:443` is the only listener `main` starts;
the plain HTTP listener on `0.0.0.0:9000` is not started. -/
theorem main_tls_only_https :
    listeners (main tlsWorld []) = [innerSrv tlsWorld] ∧
    (innerSrv tlsWorld).Addr = "0.0.0.0:443" ∧
    (outerSrv tlsWorld).Addr = "0.0.0.0:9000" ∧
    outerSrv tlsWorld ∉ listeners (main tlsWorld []) := by
  decide

/-- C5, the code at the failing input: `CERTIFICATE` and `SSLKEY` are valid
base64 but do not form a valid key pair.  The goroutine logs the error, calls
`ListenAndServeTLS` all the same, logs its failure, and ends; the plain HTTP
listener is never started. -/
theorem main_invalid_key_pair :
    (DecodeString badPairWorld.environ.CERTIFICATE).err = none ∧
    (DecodeString badPairWorld.environ.SSLKEY).err = none ∧
    listenerGoroutine badPairWorld =
      [.logError "Erro ao carregar certificado SSL:", .logInfo "Starting HTTPS server...",
       .listenAndServeTLS (innerSrv badPairWorld) "/tmp/cert-0.pem" "/tmp/cert-1.pem",
       .logError "Startup failed:"] ∧
    outerSrv badPairWorld ∉ listeners (main badPairWorld []) := by
  decide

/-- C8, the code at the failing input: TLS material is configured and valid,
the HTTPS server is the one serving, and a signal arrives.  `Shutdown` is
called on the `srv` of the body of `main`, which never listened; the HTTPS
server gets no `Shutdown`. -/
theorem main_shutdown_misses_https :
    listeners (main tlsWorld []) = [innerSrv tlsWorld] ∧
    ListenAndServeTLSFails tlsWorld (decodeMaterial tlsWorld).2.2 (innerSrv tlsWorld)
      "/tmp/cert-0.pem" "/tmp/cert-1.pem" = none ∧
    Event.signal ∈ main tlsWorld [] ∧
    shutdowns (main tlsWorld []) = [outerSrv tlsWorld] ∧
    innerSrv tlsWorld ∉ shutdowns (main tlsWorld []) := by
  decide

end Wuzapi
